import Mathlib

/-!
# CWA-CODiS crawler: fetch, flatten, chunk, write

A shallow embedding of `src/main.go` (`parseFlexibleDate`, `getStationData`,
`csvColumns`, `writeCSV`, `processStationData`, `main`) followed by the theorems
about it.

Conventions of the embedding

* A value decoded by `json.Unmarshal` into `interface{}` is a `JVal`.  A Go
  `map[string]interface{}` is an association list read with first-match
  lookup (an entry behind another one with the same key does not exist for
  Go); a missing key reads as the nil interface, as in Go.
* A Go `map[string]string` (one output record) is a partial function
  `String → Option String`; reading a missing key gives `""`, as in Go.
* The outside world (HTTP server, clock, disk) is passed in explicitly and
  every operation returns the list of effects it performed.
-/

namespace Codis

/-! ## Decoded JSON values and `fmt.Sprintf("%v", _)` -/

/-- A `float64`, identified by its IEEE-754 bit pattern. -/
structure Float64 where
  bits : Nat

/-- What `json.Unmarshal` stores in an `interface{}`: `nil`, `bool`,
`float64`, `string`, `[]interface{}` or `map[string]interface{}`. -/
inductive JVal where
  | null
  | bool (b : Bool)
  | num (f : Float64)
  | str (s : String)
  | arr (xs : List JVal)
  | obj (kvs : List (String × JVal))

/-- A Go `map[string]interface{}`. -/
abbrev JMap := List (String × JVal)

/-- The expression `m[k]` on a `map[string]interface{}`: the nil interface when
the key is missing. -/
def index (m : JMap) (k : String) : JVal :=
  (m.lookup k).getD JVal.null

/-- The type assertion `v.(map[string]interface{})`. -/
def asMap : JVal → Option JMap
  | JVal.obj kvs => some kvs
  | _ => none

/-- The type assertion `v.([]interface{})`. -/
def asSlice : JVal → Option (List JVal)
  | JVal.arr xs => some xs
  | _ => none

/-- The entries of a Go map that an association list stands for: of two
entries with one key, the first is the one lookup finds. -/
def firstOfKey : List (String × String) → List (String × String)
  | [] => []
  | (k, v) :: rest => (k, v) :: (firstOfKey rest).filter (fun p => p.1 ≠ k)

/-- The order of Go strings, byte by byte; on UTF-8 text that is the order of
the code points. -/
def keyLess : List Char → List Char → Bool
  | _, [] => false
  | [], _ :: _ => true
  | a :: as, b :: bs => decide (a.toNat < b.toNat) || (decide (a.toNat = b.toNat) && keyLess as bs)

/-- Insertion of an entry into a list sorted by key. -/
def insertEntry (e : String × String) : List (String × String) → List (String × String)
  | [] => [e]
  | x :: xs =>
    if keyLess x.1.toList e.1.toList then x :: insertEntry e xs else e :: x :: xs

/-- The entries sorted by key, the order in which `fmt` prints a map. -/
def sortEntries : List (String × String) → List (String × String)
  | [] => []
  | e :: rest => insertEntry e (sortEntries rest)

/-- The texts `key:value` separated by one space. -/
def joinEntries : List (String × String) → String
  | [] => ""
  | [(k, v)] => k ++ ":" ++ v
  | (k, v) :: rest => k ++ ":" ++ v ++ " " ++ joinEntries rest

mutual
/-- The text `fmt.Sprintf("%v", v)` for a decoded JSON value.  The rendering of
a `float64` (shortest `%g` form) is the parameter `fmtFloat`.  A slice prints
as `[a b]`, a map as `map[k:v k:v]` with its keys sorted. -/
def sprintV (fmtFloat : Float64 → String) : JVal → String
  | JVal.null => "<nil>"
  | JVal.bool b => if b then "true" else "false"
  | JVal.num f => fmtFloat f
  | JVal.str s => s
  | JVal.arr xs => "[" ++ sprintElems fmtFloat xs ++ "]"
  | JVal.obj kvs =>
    "map[" ++ joinEntries (sortEntries (firstOfKey (sprintEntries fmtFloat kvs))) ++ "]"
/-- Elements of a slice, separated by one space. -/
def sprintElems (fmtFloat : Float64 → String) : List JVal → String
  | [] => ""
  | x :: xs =>
    match xs with
    | [] => sprintV fmtFloat x
    | _ :: _ => sprintV fmtFloat x ++ " " ++ sprintElems fmtFloat xs
/-- The entries of a map with the text of each value. -/
def sprintEntries (fmtFloat : Float64 → String) : List (String × JVal) → List (String × String)
  | [] => []
  | (k, v) :: kvs => (k, sprintV fmtFloat v) :: sprintEntries fmtFloat kvs
end

/-! ## Output records -/

/-- A Go `map[string]string`. -/
abbrev Record := String → Option String

/-- The value of `make(map[string]string)`. -/
def Record.empty : Record := fun _ => none

/-- The assignment `record[k] = v`. -/
def Record.set (record : Record) (k v : String) : Record :=
  fun x => if x = k then some v else record x

/-- The expression `rec[col]`: the empty string when the key is missing. -/
def Record.get (rec : Record) (col : String) : String :=
  (rec col).getD ""

/-- The statement `if g, ok := recMap[group].(map[string]interface{}); ok { body }`. -/
def withGroup (recMap : JMap) (group : String) (body : JMap → Record → Record)
    (record : Record) : Record :=
  match asMap (index recMap group) with
  | some g => body g record
  | none => record

/-- The body of the loop over `dts` in `getStationData` (lines 225-283): the
record built from one observation object. -/
def flatten (fmtFloat : Float64 → String) (recMap : JMap) : Record :=
  let record := Record.empty
  -- AirTemperature
  let record := withGroup recMap "AirTemperature" (fun atm record =>
    let record := record.set "MaxAirTemperature" (sprintV fmtFloat (index atm "Maximum"))
    let record := record.set "MeanAirTemperature" (sprintV fmtFloat (index atm "Mean"))
    let record := record.set "MinAirTemperature" (sprintV fmtFloat (index atm "Minimum"))
    let record := record.set "MaxAirTemperatureTime" (sprintV fmtFloat (index atm "MaximumTime"))
    record.set "MinAirTemperatureTime" (sprintV fmtFloat (index atm "MinimumTime"))) record
  -- WindSpeed, WindDirection
  let record := withGroup recMap "WindSpeed" (fun ws record =>
    record.set "WindSpeed" (sprintV fmtFloat (index ws "Mean"))) record
  let record := withGroup recMap "WindDirection" (fun wd record =>
    record.set "WindDirection" (sprintV fmtFloat (index wd "Prevailing"))) record
  -- StationPressure
  let record := withGroup recMap "StationPressure" (fun sp record =>
    let record := record.set "MaxStationPressure" (sprintV fmtFloat (index sp "Maximum"))
    let record := record.set "MinStationPressure" (sprintV fmtFloat (index sp "Minimum"))
    let record := record.set "MeanStationPressure" (sprintV fmtFloat (index sp "Mean"))
    let record := record.set "MaxStationPressureTime" (sprintV fmtFloat (index sp "MaximumTime"))
    record.set "MinStationPressureTime" (sprintV fmtFloat (index sp "MinimumTime"))) record
  -- RelativeHumidity
  let record := withGroup recMap "RelativeHumidity" (fun rh record =>
    let record := record.set "MaxRelativeHumidity" (sprintV fmtFloat (index rh "Maximum"))
    let record := record.set "MinRelativeHumidity" (sprintV fmtFloat (index rh "Minimum"))
    let record := record.set "MeanRelativeHumidity" (sprintV fmtFloat (index rh "Mean"))
    let record := record.set "MaxRelativeHumidityTime" (sprintV fmtFloat (index rh "MaximumTime"))
    record.set "MinRelativeHumidityTime" (sprintV fmtFloat (index rh "MinimumTime"))) record
  -- PeakGust
  let record := withGroup recMap "PeakGust" (fun pg record =>
    let record := record.set "MaxPeakGust" (sprintV fmtFloat (index pg "Maximum"))
    let record := record.set "MaxPeakGustTime" (sprintV fmtFloat (index pg "MaximumTime"))
    record.set "MaxPeakGustDirection" (sprintV fmtFloat (index pg "Direction"))) record
  -- Precipitation
  let record := withGroup recMap "Precipitation" (fun pr record =>
    let record := record.set "AccumulationPrecipitation" (sprintV fmtFloat (index pr "Accumulation"))
    let record := record.set "HourlyMaxPrecipitation" (sprintV fmtFloat (index pr "HourlyMaximum"))
    let record := record.set "HourlyMaxPrecipitationTime"
      (sprintV fmtFloat (index pr "HourlyMaximumTime"))
    record.set "MeltFlagPrecipitation" (sprintV fmtFloat (index pr "MeltFlag"))) record
  -- SunshineDuration
  let record := withGroup recMap "SunshineDuration" (fun sd record =>
    record.set "SunshineDuration" (sprintV fmtFloat (index sd "Total"))) record
  -- GlobalSolarRadiation
  let record := withGroup recMap "GlobalSolarRadiation" (fun gsr record =>
    let record := record.set "AccumulationGlobalSolarRadiation"
      (sprintV fmtFloat (index gsr "Accumulation"))
    let record := record.set "HourlyMaximumGlobalSolarRadiation"
      (sprintV fmtFloat (index gsr "HourlyMaximum"))
    record.set "HourlyMaximumGlobalSolarRadiationTime"
      (sprintV fmtFloat (index gsr "HourlyMaximumTime"))) record
  -- DataDate: `if obs, ok := recMap["DataDate"]; ok`
  match recMap.lookup "DataDate" with
  | some obs => record.set "DataDate" (sprintV fmtFloat obs)
  | none => record

/-- The loop `for _, rec := range dts` of `getStationData`: an element that is
not an object is skipped, every other one appends its record. -/
def flattenAll (fmtFloat : Float64 → String) (dts : List JVal) : List Record :=
  dts.filterMap (fun rec => (asMap rec).map (flatten fmtFloat))

/-! ## The CSV writer -/

/-- The package variable `csvColumns`. -/
def csvColumns : List String :=
  [ "DataDate", "WindSpeed", "WindDirection", "SunshineDuration",
    "MaxAirTemperature", "MeanAirTemperature", "MinAirTemperature",
    "MaxAirTemperatureTime", "MinAirTemperatureTime",
    "MaxStationPressure", "MinStationPressure", "MeanStationPressure",
    "MaxStationPressureTime", "MinStationPressureTime",
    "MaxRelativeHumidity", "MinRelativeHumidity", "MeanRelativeHumidity",
    "MaxRelativeHumidityTime", "MinRelativeHumidityTime",
    "MaxPeakGust", "MaxPeakGustTime", "MaxPeakGustDirection",
    "AccumulationPrecipitation", "HourlyMaxPrecipitation", "HourlyMaxPrecipitationTime",
    "MeltFlagPrecipitation",
    "AccumulationGlobalSolarRadiation", "HourlyMaximumGlobalSolarRadiation",
    "HourlyMaximumGlobalSolarRadiationTime" ]

/-- One field list handed to `csv.Writer.Write`. -/
abbrev Row := List String

/-- The row `writeCSV` builds for one record: `row[i] = rec[col]` for the
`i`-th column `col` of `csvColumns`. -/
def recordRow (rec : Record) : Row :=
  csvColumns.map (fun col => rec.get col)

/-- The disk as `writeCSV` sees it: whether `os.Create` fails, and whether the
`k`-th call of `writer.Write` (the header is call 0) reports an error. -/
structure Disk where
  createFails : Bool
  writeFails : Nat → Bool

/-- The errors `writeCSV` returns. -/
inductive DiskErr where
  | create
  | write (k : Nat)
  deriving DecidableEq

/-- What `writeCSV` did: the error it returned, if any, and the rows the writer
accepted (`none` when no file was created). -/
structure Written where
  err : Option DiskErr
  file : Option (List Row)

/-- The loop `for _, rec := range records` of `writeCSV`; `k` counts the calls
of `writer.Write` made so far and `out` holds the rows accepted so far. -/
def writeRecords (disk : Disk) : Nat → List Record → List Row → Written
  | _, [], out => ⟨none, some out⟩
  | k, rec :: rest, out =>
    if disk.writeFails k then ⟨some (DiskErr.write k), some out⟩
    else writeRecords disk (k + 1) rest (out ++ [recordRow rec])

/-- The function `writeCSV` (lines 320-346). -/
def writeCSV (disk : Disk) (records : List Record) : Written :=
  if disk.createFails then ⟨some DiskErr.create, none⟩
  else if disk.writeFails 0 then ⟨some (DiskErr.write 0), some []⟩
  else writeRecords disk 1 records [csvColumns]

/-- A disk on which nothing fails. -/
def goodDisk : Disk := ⟨false, fun _ => false⟩

/-! ## The fetch client -/

/-- What one `http.PostForm` call gives: a transport error, or a response with
its status code and the outcome of `ioutil.ReadAll` on its body (`none` when
reading fails). -/
inductive Resp where
  | netErr
  | http (status : Nat) (body : Option String)

/-- The errors `getStationData` returns, one per `return nil, ...` of the source. -/
inductive FetchErr where
  /-- Line 183: transport error on the last attempt. -/
  | requestExhausted
  /-- Line 192: reading the body failed. -/
  | readBody
  /-- Line 197: the body starts with `<`. -/
  | html (body : String)
  /-- Line 203: `json.Unmarshal` failed. -/
  | json
  /-- Lines 209 and 213: `data` is not a non-empty list of objects. -/
  | shape
  /-- Line 217: `dts` is not a list. -/
  | dts
  /-- Line 295: status `>= 500` on the last attempt. -/
  | serverExhausted (status : Nat)
  /-- Line 298: any other status that is not 200. -/
  | status (status : Nat)
  deriving DecidableEq

/-- The effects of `getStationData` on the outside world, in order: a POST for
`(stationID, timeStart, timeEnd)` and a `time.Sleep` of so many seconds. -/
inductive Event where
  | post (stationID : String) (timeStart timeEnd : Int)
  | sleep (seconds : Nat)
  deriving DecidableEq

/-- The predicate `unicode.IsSpace`. -/
def isSpace (c : Char) : Bool :=
  let n := c.toNat
  n = 0x09 || n = 0x0A || n = 0x0B || n = 0x0C || n = 0x0D || n = 0x20 ||
  n = 0x85 || n = 0xA0 || n = 0x1680 || (0x2000 ≤ n && n ≤ 0x200A) ||
  n = 0x2028 || n = 0x2029 || n = 0x202F || n = 0x205F || n = 0x3000

/-- The function `strings.TrimSpace`. -/
def trimSpace (s : List Char) : List Char :=
  ((s.dropWhile isSpace).reverse.dropWhile isSpace).reverse

/-- The test `strings.HasPrefix(strings.TrimSpace(string(body)), "<")`. -/
def htmlLike (body : String) : Bool :=
  match trimSpace body.toList with
  | c :: _ => c = '<'
  | [] => false

/-- Lines 206-285: what `getStationData` makes of the decoded `result`: it
takes `data[0]["dts"]` and flattens its elements. -/
def decodeResult (fmtFloat : Float64 → String) (result : JMap) :
    Except FetchErr (List Record) :=
  match asSlice (index result "data") with
  | none => Except.error FetchErr.shape
  | some [] => Except.error FetchErr.shape
  | some (first :: _) =>
    match asMap first with
    | none => Except.error FetchErr.shape
    | some firstData =>
      match asSlice (index firstData "dts") with
      | none => Except.error FetchErr.dts
      | some dts => Except.ok (flattenAll fmtFloat dts)

/-- Lines 190-285: what `getStationData` makes of a 200 response.
`unmarshal` is `json.Unmarshal` into a `map[string]interface{}` (`none` when it
returns an error). -/
def decodeBody (fmtFloat : Float64 → String) (unmarshal : String → Option JMap)
    (body : Option String) : Except FetchErr (List Record) :=
  match body with
  | none => Except.error FetchErr.readBody
  | some body =>
    if htmlLike body then Except.error (FetchErr.html body)
    else
      match unmarshal body with
      | none => Except.error FetchErr.json
      | some result => decodeResult fmtFloat result

/-- The constant `retryCount` of `getStationData`. -/
def retryCount : Nat := 3

/-- What a call of `getStationData` returns, with the effects it performed. -/
structure Outcome where
  result : Except FetchErr (List Record)
  events : List Event

/-- The loop `for i := 0; i <= retryCount; i++` of `getStationData`, entered
with loop variable `i` and `waitDuration` seconds; `fuel` is the number of
iterations left, `retryCount + 1 - i`.  `server i` is the answer to the POST of
iteration `i`. -/
def attempts (fmtFloat : Float64 → String) (unmarshal : String → Option JMap)
    (server : Nat → Resp) (stationID : String) (timeStart timeEnd : Int) :
    Nat → Nat → Nat → Outcome
  | 0, _, _ => ⟨Except.ok [], []⟩
  | fuel + 1, i, waitDuration =>
    match server i with
    | Resp.netErr =>
      if i < retryCount then
        let rest := attempts fmtFloat unmarshal server stationID timeStart timeEnd
          fuel (i + 1) (waitDuration * 2)
        ⟨rest.result,
          Event.post stationID timeStart timeEnd :: Event.sleep waitDuration :: rest.events⟩
      else ⟨Except.error FetchErr.requestExhausted, [Event.post stationID timeStart timeEnd]⟩
    | Resp.http status body =>
      if status = 200 then
        ⟨decodeBody fmtFloat unmarshal body, [Event.post stationID timeStart timeEnd]⟩
      else if status ≥ 500 then
        if i < retryCount then
          let rest := attempts fmtFloat unmarshal server stationID timeStart timeEnd
            fuel (i + 1) (waitDuration * 2)
          ⟨rest.result,
            Event.post stationID timeStart timeEnd :: Event.sleep waitDuration :: rest.events⟩
        else
          ⟨Except.error (FetchErr.serverExhausted status),
            [Event.post stationID timeStart timeEnd]⟩
      else
        ⟨Except.error (FetchErr.status status), [Event.post stationID timeStart timeEnd]⟩

/-- The function `getStationData` (lines 159-303): the loop entered with
`i = 0` and `waitDuration = time.Second`. -/
def getStationData (fmtFloat : Float64 → String) (unmarshal : String → Option JMap)
    (server : Nat → Resp) (stationID : String) (timeStart timeEnd : Int) : Outcome :=
  attempts fmtFloat unmarshal server stationID timeStart timeEnd (retryCount + 1) 0 1

/-! ## The orchestrator

`main` hands `processStationData` two results of `parseFlexibleDate`, which are
UTC midnights, so a `time.Time` is its day number here (days since the epoch),
`t.AddDate(0, 0, n)` is `t + n`, and the clock is read in nanoseconds. -/

/-- Nanoseconds in one day. -/
def nsPerDay : Int := 86400 * 1000000000

/-- The largest `time.Duration`, in nanoseconds. -/
def maxDuration : Int := 2 ^ 63 - 1

/-- The smallest `time.Duration`, in nanoseconds. -/
def minDuration : Int := -(2 ^ 63)

/-- The method `timeEnd.Sub(timeStart)`, in nanoseconds: the difference, or the
largest (smallest) duration when the difference does not fit in an `int64`. -/
def sub (timeEnd timeStart : Int) : Int :=
  let d := (timeEnd - timeStart) * nsPerDay
  if d > maxDuration then maxDuration
  else if d < minDuration then minDuration
  else d

/-- The test `d.Hours() <= 366*24`.  On the durations `sub` returns (whole days,
or a saturated value), the `float64` comparison agrees with the exact one. -/
def withinWindow (d : Int) : Bool :=
  d ≤ 366 * nsPerDay

/-- The expression `int(d.Hours() / 24)`: the quotient truncated toward zero.
On the durations `sub` returns the `float64` quotient is the number of days
exactly, or 106751.99... for the largest duration, so the truncation agrees. -/
def totalDaysOf (d : Int) : Int :=
  Int.tdiv d nsPerDay

/-- The method `t.After(now)` for a UTC midnight `t` (a day number) and a clock
reading `now` in nanoseconds since the epoch. -/
def after (t : Int) (now : Int) : Bool :=
  t * nsPerDay > now

/-- The effects of `processStationData`, in order: a call of `getStationData`
and a call of `writeCSV`. -/
inductive Step where
  | fetch (stationID : String) (timeStart timeEnd : Int)
  | write (filename : String) (rows : Written)

/-- The errors `processStationData` returns: a wrapped fetch error (lines 355
and 375) or a wrapped `writeCSV` error (line 383). -/
inductive RunErr where
  | fetch (cause : FetchErr)
  | save (cause : DiskErr)
  deriving DecidableEq

/-- What the chunk loop leaves behind: the fetch error that stopped it, or
`allRecords`, with the calls of `getStationData` it made. -/
structure Chunked where
  result : Except FetchErr (List Record)
  steps : List Step

/-- The loop `for i := 0; i < totalDays; i += 366` of `processStationData`,
entered with loop variable `i` and accumulator `allRecords`; `fuel` bounds the
iterations left.  `fetch` is `getStationData` and `now i` is the reading of
`time.Now()` in the iteration with loop variable `i`. -/
def chunkLoop (fetch : String → Int → Int → Except FetchErr (List Record))
    (now : Int → Int) (stationID : String) (timeStart timeEnd totalDays : Int) :
    Nat → Int → List Record → Chunked
  | 0, _, allRecords => ⟨Except.ok allRecords, []⟩
  | fuel + 1, i, allRecords =>
    if i < totalDays then
      let startChunk := timeStart + i
      if after startChunk (now i) then
        chunkLoop fetch now stationID timeStart timeEnd totalDays fuel (i + 366) allRecords
      else
        let endChunk := timeStart + (i + 366)
        let endChunk := if endChunk > timeEnd then timeEnd else endChunk
        match fetch stationID startChunk endChunk with
        | Except.error err => ⟨Except.error err, [Step.fetch stationID startChunk endChunk]⟩
        | Except.ok records =>
          let rest := chunkLoop fetch now stationID timeStart timeEnd totalDays fuel (i + 366)
            (allRecords ++ records)
          ⟨rest.result, Step.fetch stationID startChunk endChunk :: rest.steps⟩
    else ⟨Except.ok allRecords, []⟩

/-- What a call of `processStationData` returns (`none` for `nil`), with the
effects it performed. -/
structure Run where
  err : Option RunErr
  steps : List Step

/-- Lines 381-386 of `processStationData`: name the file and write it.
`fmtDay` is `t.Format("20060102")`. -/
def save (disk : Disk) (fmtDay : Int → String) (stationID : String)
    (timeStart timeEnd : Int) (before : List Step) (allRecords : List Record) : Run :=
  let filename := stationID ++ "_" ++ fmtDay timeStart ++ "_" ++ fmtDay timeEnd ++ ".csv"
  let written := writeCSV disk allRecords
  match written.err with
  | some err => ⟨some (RunErr.save err), before ++ [Step.write filename written]⟩
  | none => ⟨none, before ++ [Step.write filename written]⟩

/-- The function `processStationData` (lines 349-387). -/
def processStationData (fetch : String → Int → Int → Except FetchErr (List Record))
    (now : Int → Int) (disk : Disk) (fmtDay : Int → String) (stationID : String)
    (timeStart timeEnd : Int) : Run :=
  if withinWindow (sub timeEnd timeStart) then
    match fetch stationID timeStart timeEnd with
    | Except.error err => ⟨some (RunErr.fetch err), [Step.fetch stationID timeStart timeEnd]⟩
    | Except.ok records =>
      save disk fmtDay stationID timeStart timeEnd [Step.fetch stationID timeStart timeEnd] records
  else
    let totalDays := totalDaysOf (sub timeEnd timeStart)
    let chunked := chunkLoop fetch now stationID timeStart timeEnd totalDays
      totalDays.toNat 0 []
    match chunked.result with
    | Except.error err => ⟨some (RunErr.fetch err), chunked.steps⟩
    | Except.ok allRecords =>
      save disk fmtDay stationID timeStart timeEnd chunked.steps allRecords

/-- The `(startChunk, endChunk)` pairs of the calls of `getStationData` in a
list of effects. -/
def fetched : List Step → List (Int × Int)
  | [] => []
  | Step.fetch _ s e :: rest => (s, e) :: fetched rest
  | Step.write _ _ :: rest => fetched rest

/-- Whether a list of effects holds a call of `writeCSV`. -/
def wrote : List Step → Bool
  | [] => false
  | Step.fetch _ _ _ :: rest => wrote rest
  | Step.write _ _ :: _ => true

/-! ## The date reader

`time.Parse` for the four layouts of `parseFlexibleDate`.  A layout is the list
of chunks `nextStdChunk` cuts it into; the value is read as a list of
characters (the digits and separators that matter are single bytes). -/

/-- The chunks of the layouts in use: `2006`, `01`, `1`, `02`, `2`, and a
literal separator. -/
inductive Chunk where
  | longYear
  | zeroMonth
  | numMonth
  | zeroDay
  | day
  | lit (c : Char)

/-- Whether a byte is an ASCII digit. -/
def isDigitChar (c : Char) : Bool :=
  48 ≤ c.toNat && c.toNat ≤ 57

/-- The number a digit stands for, `c - '0'`. -/
def digitVal (c : Char) : Nat :=
  c.toNat - 48

/-- The helper `getnum(s, fixed)` of package `time`: one or two digits, exactly
two when `fixed`. -/
def getnum : List Char → Bool → Option (Nat × List Char)
  | [], _ => none
  | [c0], fixed =>
    if isDigitChar c0 then (if fixed then none else some (digitVal c0, []))
    else none
  | c0 :: c1 :: rest, fixed =>
    if isDigitChar c0 then
      if isDigitChar c1 then some (digitVal c0 * 10 + digitVal c1, rest)
      else if fixed then none
      else some (digitVal c0, c1 :: rest)
    else none

/-- The case `stdLongYear` of `time.Parse`: exactly four digits. -/
def getYear : List Char → Option (Nat × List Char)
  | c0 :: c1 :: c2 :: c3 :: rest =>
    if isDigitChar c0 && isDigitChar c1 && isDigitChar c2 && isDigitChar c3 then
      some (digitVal c0 * 1000 + digitVal c1 * 100 + digitVal c2 * 10 + digitVal c3, rest)
    else none
  | _ => none

/-- The function `isLeap` of package `time`. -/
def isLeap (year : Nat) : Bool :=
  year % 4 = 0 && (year % 100 ≠ 0 || year % 400 = 0)

/-- The function `daysIn` of package `time`. -/
def daysIn (month year : Nat) : Nat :=
  if month = 2 then (if isLeap year then 29 else 28)
  else if month = 4 || month = 6 || month = 9 || month = 11 then 30
  else 31

/-- A `time.Time` in UTC, by its calendar date and clock fields. -/
structure Time where
  year : Nat
  month : Nat
  day : Nat
  hour : Nat
  minute : Nat
  second : Nat
  nanosecond : Nat
  deriving DecidableEq

/-- The chunk loop of `time.Parse`: reads the value against the layout and
keeps the year, month and day read so far (`none` for a field not read yet);
a month outside 1..12 is an error on the spot, text left over at the end of the
layout is an error. -/
def parseChunks : List Chunk → List Char → Nat → Option Nat → Option Nat →
    Option (Nat × Option Nat × Option Nat)
  | [], value, year, month, day =>
    if value.isEmpty then some (year, month, day) else none
  | Chunk.lit c :: layout, value, year, month, day =>
    match value with
    | [] => none
    | v :: rest => if v = c then parseChunks layout rest year month day else none
  | Chunk.longYear :: layout, value, _, month, day =>
    match getYear value with
    | none => none
    | some (y, rest) => parseChunks layout rest y month day
  | Chunk.zeroMonth :: layout, value, year, _, day =>
    match getnum value true with
    | none => none
    | some (m, rest) =>
      if m = 0 || 12 < m then none else parseChunks layout rest year (some m) day
  | Chunk.numMonth :: layout, value, year, _, day =>
    match getnum value false with
    | none => none
    | some (m, rest) =>
      if m = 0 || 12 < m then none else parseChunks layout rest year (some m) day
  | Chunk.zeroDay :: layout, value, year, month, _ =>
    match getnum value true with
    | none => none
    | some (d, rest) => parseChunks layout rest year month (some d)
  | Chunk.day :: layout, value, year, month, _ =>
    match getnum value false with
    | none => none
    | some (d, rest) => parseChunks layout rest year month (some d)

/-- The function `time.Parse(layout, value)` for a layout without clock or zone
chunks: a month or day that was not read is 1, the day is checked against the
month, and the result is that date at 00:00:00 UTC. -/
def timeParse (layout : List Chunk) (value : String) : Option Time :=
  match parseChunks layout value.toList 0 none none with
  | none => none
  | some (year, month, day) =>
    let month := month.getD 1
    let day := day.getD 1
    if day < 1 || day > daysIn month year then none
    else some ⟨year, month, day, 0, 0, 0, 0⟩

/-- The slice `layouts` of `parseFlexibleDate`: `"2006-01-02"`, `"2006/01/02"`,
`"2006-1-2"`, `"2006/1/2"`. -/
def layouts : List (List Chunk) :=
  [ [Chunk.longYear, Chunk.lit '-', Chunk.zeroMonth, Chunk.lit '-', Chunk.zeroDay],
    [Chunk.longYear, Chunk.lit '/', Chunk.zeroMonth, Chunk.lit '/', Chunk.zeroDay],
    [Chunk.longYear, Chunk.lit '-', Chunk.numMonth, Chunk.lit '-', Chunk.day],
    [Chunk.longYear, Chunk.lit '/', Chunk.numMonth, Chunk.lit '/', Chunk.day] ]

/-- The loop `for _, layout := range layouts` of `parseFlexibleDate`: the
first layout that parses wins. -/
def firstParse : List (List Chunk) → String → Option Time
  | [], _ => none
  | layout :: rest, dateStr =>
    match timeParse layout dateStr with
    | some t => some t
    | none => firstParse rest dateStr

/-- The function `parseFlexibleDate` (lines 97-113); `none` is the error. -/
def parseFlexibleDate (dateStr : String) : Option Time :=
  firstParse layouts dateStr

/-! ## Renderings of a date in the four supported formats -/

/-- The character of a digit. -/
def digitChar (n : Nat) : Char :=
  Char.ofNat (48 + n)

/-- Two digits, zero padded (`MM`, `DD`). -/
def pad2 (n : Nat) : List Char :=
  [digitChar (n / 10), digitChar (n % 10)]

/-- Four digits, zero padded (`YYYY`). -/
def pad4 (n : Nat) : List Char :=
  [digitChar (n / 1000), digitChar (n / 100 % 10), digitChar (n / 10 % 10), digitChar (n % 10)]

/-- One or two digits without padding (`M`, `D`). -/
def bare (n : Nat) : List Char :=
  if n < 10 then [digitChar n] else pad2 n

/-- The rendering of a date with a separator, padded or not. -/
def render (sep : Char) (padded : Bool) (year month day : Nat) : String :=
  if padded then String.mk (pad4 year ++ sep :: (pad2 month ++ sep :: pad2 day))
  else String.mk (pad4 year ++ sep :: (bare month ++ sep :: bare day))

/-- A calendar date that the four formats can express. -/
def validDate (year month day : Nat) : Prop :=
  year ≤ 9999 ∧ 1 ≤ month ∧ month ≤ 12 ∧ 1 ≤ day ∧ day ≤ daysIn month year

/-! ## Tables of the specification and sample inputs -/

/-- The rows `(group, sub-field, output field)` of the table in section 4.3 of
the specification. -/
def fieldTable : List (String × String × String) :=
  [ ("AirTemperature", "Maximum", "MaxAirTemperature"),
    ("AirTemperature", "Mean", "MeanAirTemperature"),
    ("AirTemperature", "Minimum", "MinAirTemperature"),
    ("AirTemperature", "MaximumTime", "MaxAirTemperatureTime"),
    ("AirTemperature", "MinimumTime", "MinAirTemperatureTime"),
    ("WindSpeed", "Mean", "WindSpeed"),
    ("WindDirection", "Prevailing", "WindDirection"),
    ("StationPressure", "Maximum", "MaxStationPressure"),
    ("StationPressure", "Minimum", "MinStationPressure"),
    ("StationPressure", "Mean", "MeanStationPressure"),
    ("StationPressure", "MaximumTime", "MaxStationPressureTime"),
    ("StationPressure", "MinimumTime", "MinStationPressureTime"),
    ("RelativeHumidity", "Maximum", "MaxRelativeHumidity"),
    ("RelativeHumidity", "Minimum", "MinRelativeHumidity"),
    ("RelativeHumidity", "Mean", "MeanRelativeHumidity"),
    ("RelativeHumidity", "MaximumTime", "MaxRelativeHumidityTime"),
    ("RelativeHumidity", "MinimumTime", "MinRelativeHumidityTime"),
    ("PeakGust", "Maximum", "MaxPeakGust"),
    ("PeakGust", "MaximumTime", "MaxPeakGustTime"),
    ("PeakGust", "Direction", "MaxPeakGustDirection"),
    ("Precipitation", "Accumulation", "AccumulationPrecipitation"),
    ("Precipitation", "HourlyMaximum", "HourlyMaxPrecipitation"),
    ("Precipitation", "HourlyMaximumTime", "HourlyMaxPrecipitationTime"),
    ("Precipitation", "MeltFlag", "MeltFlagPrecipitation"),
    ("SunshineDuration", "Total", "SunshineDuration"),
    ("GlobalSolarRadiation", "Accumulation", "AccumulationGlobalSolarRadiation"),
    ("GlobalSolarRadiation", "HourlyMaximum", "HourlyMaximumGlobalSolarRadiation"),
    ("GlobalSolarRadiation", "HourlyMaximumTime", "HourlyMaximumGlobalSolarRadiationTime") ]

/-- The header of section 6 of the specification, in its order. -/
def specColumns : List String :=
  [ "DataDate", "WindSpeed", "WindDirection", "SunshineDuration", "MaxAirTemperature",
    "MeanAirTemperature", "MinAirTemperature", "MaxAirTemperatureTime",
    "MinAirTemperatureTime", "MaxStationPressure", "MinStationPressure",
    "MeanStationPressure", "MaxStationPressureTime", "MinStationPressureTime",
    "MaxRelativeHumidity", "MinRelativeHumidity", "MeanRelativeHumidity",
    "MaxRelativeHumidityTime", "MinRelativeHumidityTime", "MaxPeakGust", "MaxPeakGustTime",
    "MaxPeakGustDirection", "AccumulationPrecipitation", "HourlyMaxPrecipitation",
    "HourlyMaxPrecipitationTime", "MeltFlagPrecipitation", "AccumulationGlobalSolarRadiation",
    "HourlyMaximumGlobalSolarRadiation", "HourlyMaximumGlobalSolarRadiationTime" ]

/-- The `float64` nearest to 21.3. -/
def f21_3 : Float64 := ⟨0x40354CCCCCCCCCCD⟩

/-- The observation `{"AirTemperature": {"Mean": 21.3}, "DataDate": "2023-01-01"}`. -/
def meanOnly : JMap :=
  [ ("AirTemperature", JVal.obj [("Mean", JVal.num f21_3)]),
    ("DataDate", JVal.str "2023-01-01") ]

/-- An observation in which every group is an empty object and `DataDate` is set. -/
def allGroups : JMap :=
  [ ("AirTemperature", JVal.obj []), ("WindSpeed", JVal.obj []), ("WindDirection", JVal.obj []),
    ("StationPressure", JVal.obj []), ("RelativeHumidity", JVal.obj []),
    ("PeakGust", JVal.obj []), ("Precipitation", JVal.obj []),
    ("SunshineDuration", JVal.obj []), ("GlobalSolarRadiation", JVal.obj []),
    ("DataDate", JVal.str "2023-01-01") ]

/-- A float rendering for closed examples: `21.3` for the `float64` nearest to
21.3. -/
def fmtSample (f : Float64) : String :=
  if f.bits = 0x40354CCCCCCCCCCD then "21.3" else "?"

/-- Two sample records. -/
def twoRecords : List Record :=
  [ Record.empty.set "DataDate" "2023-01-01",
    (Record.empty.set "DataDate" "2023-02-01").set "WindSpeed" "1.5" ]

/-! ## Vocabulary for the statements about the fetch client -/

/-- Whether a response makes `getStationData` wait and try again while tries
are left: a transport error, or a status that is not 200 and is `>= 500`. -/
def retryable : Resp → Bool
  | Resp.netErr => true
  | Resp.http status _ => decide (status ≠ 200) && decide (status ≥ 500)

/-- The effects of `n` tries that each end in a wait, the first wait being
`waitDuration` seconds: a POST, a sleep, and twice the wait for the next. -/
def backoff (stationID : String) (timeStart timeEnd : Int) : Nat → Nat → List Event
  | 0, _ => []
  | n + 1, waitDuration =>
    Event.post stationID timeStart timeEnd :: Event.sleep waitDuration ::
      backoff stationID timeStart timeEnd n (waitDuration * 2)

/-- The waits in a list of effects, in seconds. -/
def sleeps : List Event → List Nat
  | [] => []
  | Event.sleep seconds :: rest => seconds :: sleeps rest
  | Event.post _ _ _ :: rest => sleeps rest

/-- The number of requests in a list of effects. -/
def posts : List Event → Nat
  | [] => 0
  | Event.sleep _ :: rest => posts rest
  | Event.post _ _ _ :: rest => posts rest + 1

/-- The first character of a body that is not white space, if any. -/
def firstNonSpace (body : String) : Option Char :=
  (body.toList.dropWhile isSpace).head?

/-- The path `data[0].dts` of the specification: the list under `dts` in the
first element of the list under `data`; `none` when `data` is missing, is not a
list or is empty, when its first element is not an object, or when `dts` is
missing or is not a list. -/
def dtsPath (result : JMap) : Option (List JVal) :=
  match result.lookup "data" with
  | some (JVal.arr (JVal.obj first :: _)) =>
    match first.lookup "dts" with
    | some (JVal.arr dts) => some dts
    | _ => none
  | _ => none

/-- A server that answers every request with status 503. -/
def always503 : Nat → Resp := fun _ => Resp.http 503 none

/-- A server that answers every request with status 404. -/
def always404 : Nat → Resp := fun _ => Resp.http 404 none

/-- A server that answers every request with status 600, a three-digit status
outside the class 5xx. -/
def always600 : Nat → Resp := fun _ => Resp.http 600 none

/-- A decoder that rejects every body. -/
def rejectAll : String → Option JMap := fun _ => none

/-- The elements of a list that are objects, in order. -/
def objects : List JVal → List JMap
  | [] => []
  | JVal.obj kvs :: rest => kvs :: objects rest
  | _ :: rest => objects rest

/-- The body
`{"data": [{"dts": [{"AirTemperature": {"Mean": 21.3}, "DataDate": "2023-01-01"}]}]}`. -/
def sampleBody : String :=
  "\x7b\"data\": [\x7b\"dts\": [\x7b\"AirTemperature\": \x7b\"Mean\": 21.3\x7d, \"DataDate\": \"2023-01-01\"\x7d]\x7d]\x7d"

/-- A stand-in for `json.Unmarshal` in closed examples, which agrees with it on
the bodies used there: `sampleBody` decodes to its value, `{}` to the empty
map, and the other bodies used (`<html>`, `oops`) are not JSON. -/
def decodeSample (body : String) : Option JMap :=
  if body = sampleBody then
    some [("data", JVal.arr [JVal.obj [("dts", JVal.arr [JVal.obj meanOnly])]])]
  else if body = "{}" then some []
  else none

/-- The rows `writeCSV` would build from the records a call returned, if it
returned any. -/
def rowsOf : Except FetchErr (List Record) → Option (List Row)
  | Except.ok records => some (records.map recordRow)
  | Except.error _ => none

/-- A server that answers every request with status 200 and a given body. -/
def serve (body : String) : Nat → Resp := fun _ => Resp.http 200 (some body)

/-! ## Vocabulary for the statements about the orchestrator -/

/-- The strides of the specification from stride number `k` on, `count` of
them: stride `j` runs from `rangeStart + 366 j` days to
`min (rangeStart + 366 (j + 1)) rangeEnd`. -/
def stridesFrom (rangeStart rangeEnd : Int) : Nat → Nat → List (Int × Int)
  | _, 0 => []
  | k, count + 1 =>
    (rangeStart + 366 * (k : Int), min (rangeStart + 366 * ((k : Int) + 1)) rangeEnd) ::
      stridesFrom rangeStart rangeEnd (k + 1) count

/-- The strides of the specification for a range of `days` whole days:
`ceil (days / 366)` of them, from stride 0. -/
def strides (rangeStart : Int) (days : Nat) : List (Int × Int) :=
  stridesFrom rangeStart (rangeStart + (days : Int)) 0 ((days + 365) / 366)

/-- The records of a list of fetches, concatenated in order. -/
def gather (fetch : String → Int → Int → Except FetchErr (List Record)) (stationID : String) :
    List (Int × Int) → List Record
  | [] => []
  | (s, e) :: rest =>
    (match fetch stationID s e with
      | Except.ok records => records
      | Except.error _ => []) ++ gather fetch stationID rest

/-- A fetch that always succeeds with no record. -/
def fetchNothing : String → Int → Int → Except FetchErr (List Record) :=
  fun _ _ _ => Except.ok []

/-- A fetch that always fails. -/
def fetchFails : String → Int → Int → Except FetchErr (List Record) :=
  fun _ _ _ => Except.error FetchErr.json

/-- A clock that stands at 2026-11-04 00:00:00 UTC, day 20761 of the epoch. -/
def clock2026 : Int → Int :=
  fun _ => 20761 * nsPerDay

/-- A stand-in for `t.Format("20060102")` in closed examples. -/
def dayText (t : Int) : String :=
  toString t

/-- The strides of a range that the loop of `processStationData` walks and that
do not start after the clock reading of their iteration, in order.  The loop
walks `ceil (totalDays / 366)` strides. -/
def liveStrides (now : Int → Int) (timeStart timeEnd : Int) : List (Int × Int) :=
  (stridesFrom timeStart timeEnd 0
      ((totalDaysOf (sub timeEnd timeStart) + 365) / 366).toNat).filter
    (fun p => !after p.1 (now (p.1 - timeStart)))

/-- The rows of the file written in a list of effects, if any. -/
def writtenFile : List Step → Option (List Row)
  | [] => none
  | Step.fetch _ _ _ :: rest => writtenFile rest
  | Step.write _ w :: _ => w.file

/-- A fetch that gives one record for a stride that starts on or before day
20761 (2026-11-04), `WindSpeed` being `a` for the stride from day 20361 and `b`
otherwise, and fails for a stride that starts later. -/
def fetchPast : String → Int → Int → Except FetchErr (List Record) :=
  fun _ s _ =>
    if s ≤ 20761 then Except.ok [Record.empty.set "WindSpeed" (if s = 20361 then "a" else "b")]
    else Except.error FetchErr.json

/-! ## Vocabulary for the statements about the date reader -/

/-- The layout `2006 c 01 c 02` when `isFixed`, `2006 c 1 c 2` otherwise. -/
def layoutOf (c : Char) (isFixed : Bool) : List Chunk :=
  [ Chunk.longYear, Chunk.lit c, if isFixed then Chunk.zeroMonth else Chunk.numMonth,
    Chunk.lit c, if isFixed then Chunk.zeroDay else Chunk.day ]

instance (year month day : Nat) : Decidable (validDate year month day) := by
  unfold validDate
  infer_instance

/-! ## The interactive shell

The function `main` (lines 389-697) as a machine that takes one result of
`getInputWithEsc` per step.  The pauses `reader.ReadString` and the printing
do not change the control flow and are left out.  A label with its `var`
declarations is a stage; a `goto` to the label enters the stage afresh, which
sets these variables to their zero values again. -/

/-- The struct `StationItem`. -/
structure StationItem where
  StationID : String
  StationName : String
  CountryName : String
  Area : String
  StationStartDate : String
  StationEndDate : String
  deriving DecidableEq

/-- What `getInputWithEsc` returns: `none` when it reports `cancelled` (Esc),
the text typed otherwise (the empty text after a keyboard error). -/
abbrev Input := Option String

/-- The fields of a time, most significant first. -/
def Time.fields (t : Time) : List Nat :=
  [t.year, t.month, t.day, t.hour, t.minute, t.second, t.nanosecond]

/-- The lexicographic order on lists of numbers. -/
def lexLess : List Nat → List Nat → Bool
  | _, [] => false
  | [], _ :: _ => true
  | a :: as, b :: bs => decide (a < b) || (decide (a = b) && lexLess as bs)

/-- The method `t.Before(u)` on two UTC times. -/
def Time.before (t u : Time) : Bool :=
  lexLess t.fields u.fields

/-- The method `t.After(u)` on two UTC times. -/
def Time.after (t u : Time) : Bool :=
  lexLess u.fields t.fields

/-- The two places where `main` calls `processStationData`: line 517 (option 1,
manual entry) and line 690 (option 2, sequential selection). -/
inductive Site where
  | manual
  | sequential
  deriving DecidableEq

/-- One call `processStationData(stationID, timeStart, timeEnd)` made by `main`. -/
structure Call where
  site : Site
  stationID : String
  timeStart : Time
  timeEnd : Time
  deriving DecidableEq

/-- The search loops of lines 450-455 and 621-626: the first item with the
station code. -/
def findStation (items : List StationItem) (stationID : String) : Option StationItem :=
  items.find? (fun item => item.StationID = stationID)

/-- The loops of lines 534-539 and 570-575: the distinct values in order of
first appearance. -/
def unique : List String → List String → List String
  | seen, [] => seen
  | seen, x :: rest => if x ∈ seen then unique seen rest else unique (seen ++ [x]) rest

/-- The slice `uniqueAreas` of line 533. -/
def uniqueAreas (stationInfo : List StationItem) : List String :=
  unique [] (stationInfo.map (fun s => s.Area))

/-- The slice `uniqueCountries` of line 569. -/
def uniqueCountries (stationInfo : List StationItem) (area : String) : List String :=
  unique [] ((stationInfo.filter (fun s => s.Area = area)).map (fun s => s.CountryName))

/-- The slice `filtered` of line 605. -/
def filteredStations (stationInfo : List StationItem) (area countryName : String) :
    List StationItem :=
  stationInfo.filter (fun s => s.Area = area && s.CountryName = countryName)

/-- Lines 548-555 and 584-591: the entry chosen by its number, `none` when the
text is not a number (`atoi` is `strconv.Atoi`) or the number is out of range. -/
def choose (atoi : String → Option Int) (options : List String) (text : String) :
    Option String :=
  match atoi text with
  | none => none
  | some idx =>
    if idx < 1 || idx > (options.length : Int) then none
    else options.get? (idx - 1).toNat

/-- Lines 481-487 and 654-660: the start date is refused when the start date of
the station parses and the date is before it. -/
def startRefused (stationStartDate : String) (t : Time) : Bool :=
  match parseFlexibleDate stationStartDate with
  | some stationStart => t.before stationStart
  | none => false

/-- Where `main` waits for input, with the variables in scope there. -/
inductive Stage where
  /-- Line 427, the menu. -/
  | menu
  /-- Line 444, option 1: the station code. -/
  | stationInput
  /-- Line 468, option 1: the start date; `stationID` is the variable of line 444. -/
  | startDateInput (stationID : String) (found : StationItem)
  /-- Line 494, option 1: the end date. -/
  | endDateInput (stationID : String) (found : StationItem) (timeStart : Time)
  /-- Line 543, option 2: the area. -/
  | areaSelect
  /-- Line 579, option 2: the county. -/
  | countySelect (area : String)
  /-- Line 616, option 2: the station code; `stationID` is the variable of line
  600 and `selectedStation` is still nil. -/
  | stationSelect (area countryName stationID : String)
  /-- Line 641, option 2: the start date; `stationID` is the variable of line 600. -/
  | startDateSelect (area countryName stationID : String) (selectedStation : StationItem)
  /-- Line 667, option 2: the end date. -/
  | endDateSelect (area countryName stationID : String) (selectedStation : StationItem)
      (timeStart : Time)
  /-- After `break MainLoop`. -/
  | exited
  deriving DecidableEq

/-- One step of `main`: from a stage and the result of its `getInputWithEsc`
call to the next stage, with the call of `processStationData` made on the way,
if any. -/
def step (atoi : String → Option Int) (stationInfo : List StationItem) :
    Stage → Input → Stage × Option Call
  -- lines 427-437
  | Stage.menu, none => (Stage.exited, none)
  | Stage.menu, some choice =>
    if choice = "3" then (Stage.exited, none)
    else if choice = "1" then (Stage.stationInput, none)
    else if choice = "2" then (Stage.areaSelect, none)
    else (Stage.menu, none)
  -- lines 444-463: `stationID, cancelled := getInputWithEsc(...)` declares `stationID`
  | Stage.stationInput, none => (Stage.menu, none)
  | Stage.stationInput, some stationID =>
    match findStation stationInfo stationID with
    | none => (Stage.stationInput, none)
    | some found => (Stage.startDateInput stationID found, none)
  -- lines 468-490
  | Stage.startDateInput _ _, none => (Stage.stationInput, none)
  | Stage.startDateInput stationID found, some timeStartStr =>
    match parseFlexibleDate timeStartStr with
    | none => (Stage.startDateInput stationID found, none)
    | some t =>
      if startRefused found.StationStartDate t then (Stage.startDateInput stationID found, none)
      else (Stage.endDateInput stationID found t, none)
  -- lines 494-523
  | Stage.endDateInput stationID found _, none => (Stage.startDateInput stationID found, none)
  | Stage.endDateInput stationID found timeStart, some timeEndStr =>
    match parseFlexibleDate timeEndStr with
    | none => (Stage.endDateInput stationID found timeStart, none)
    | some t =>
      if timeStart.after t then (Stage.startDateInput stationID found, none)
      else (Stage.menu, some ⟨Site.manual, stationID, timeStart, t⟩)
  -- lines 543-561
  | Stage.areaSelect, none => (Stage.menu, none)
  | Stage.areaSelect, some areaIndexStr =>
    match choose atoi (uniqueAreas stationInfo) areaIndexStr with
    | none => (Stage.areaSelect, none)
    | some area => if area = "" then (Stage.menu, none) else (Stage.countySelect area, none)
  -- lines 579-600: after the county, line 600 `var stationID string` gives `""`
  | Stage.countySelect _, none => (Stage.areaSelect, none)
  | Stage.countySelect area, some countryIndexStr =>
    match choose atoi (uniqueCountries stationInfo area) countryIndexStr with
    | none => (Stage.countySelect area, none)
    | some countryName =>
      if countryName = "" then (Stage.menu, none)
      else (Stage.stationSelect area countryName "", none)
  -- lines 616-636: `stationID, cancelled := getInputWithEsc(...)` is a short
  -- declaration inside the body of the `for`, so the text typed goes to a new
  -- variable `typed` of that body and the `stationID` of line 600 is not assigned
  | Stage.stationSelect area _ _, none => (Stage.countySelect area, none)
  | Stage.stationSelect area countryName stationID, some typed =>
    match findStation (filteredStations stationInfo area countryName) typed with
    | none => (Stage.stationSelect area countryName stationID, none)
    | some selectedStation =>
      (Stage.startDateSelect area countryName stationID selectedStation, none)
  -- lines 641-663: `goto stationSelect` runs line 600 again
  | Stage.startDateSelect area countryName _ _, none =>
    (Stage.stationSelect area countryName "", none)
  | Stage.startDateSelect area countryName stationID selectedStation, some timeStartStr =>
    match parseFlexibleDate timeStartStr with
    | none => (Stage.startDateSelect area countryName stationID selectedStation, none)
    | some t =>
      if startRefused selectedStation.StationStartDate t then
        (Stage.startDateSelect area countryName stationID selectedStation, none)
      else (Stage.endDateSelect area countryName stationID selectedStation t, none)
  -- lines 667-692
  | Stage.endDateSelect area countryName stationID selectedStation _, none =>
    (Stage.startDateSelect area countryName stationID selectedStation, none)
  | Stage.endDateSelect area countryName stationID selectedStation timeStart, some timeEndStr =>
    match parseFlexibleDate timeEndStr with
    | none => (Stage.endDateSelect area countryName stationID selectedStation timeStart, none)
    | some t =>
      if timeStart.after t then
        (Stage.startDateSelect area countryName stationID selectedStation, none)
      else (Stage.menu, some ⟨Site.sequential, stationID, timeStart, t⟩)
  | Stage.exited, _ => (Stage.exited, none)

/-- The calls of `processStationData` that `main` makes from a stage on, in
order, for the inputs typed from there on. -/
def calls (atoi : String → Option Int) (stationInfo : List StationItem) :
    Stage → List Input → List Call
  | _, [] => []
  | stage, input :: rest =>
    match (step atoi stationInfo stage input).2 with
    | some call => call :: calls atoi stationInfo (step atoi stationInfo stage input).1 rest
    | none => calls atoi stationInfo (step atoi stationInfo stage input).1 rest

/-- The function `main` (lines 389-697) after `getStationInfo` returned
`stationInfo`: the calls of `processStationData` it makes for the inputs. -/
def main (atoi : String → Option Int) (stationInfo : List StationItem)
    (inputs : List Input) : List Call :=
  calls atoi stationInfo Stage.menu inputs

/-! ## Vocabulary for the statements about the interactive shell -/

/-- A station list with one station. -/
def oneStation : List StationItem :=
  [⟨"C0A520", "Shanjia", "NewTaipei", "North", "1987-07-01", ""⟩]

/-- A stand-in for `strconv.Atoi` in closed examples: it reads `"1"`. -/
def atoiOne (text : String) : Option Int :=
  if text = "1" then some 1 else none

/-- What holds of the variables of every stage `main` reaches: in option 1 the
station found has the code typed, in option 2 the `stationID` of line 600 is
empty and the station selected is one of the list. -/
def Stage.reached (stationInfo : List StationItem) : Stage → Prop
  | Stage.startDateInput stationID found => found ∈ stationInfo ∧ found.StationID = stationID
  | Stage.endDateInput stationID found _ => found ∈ stationInfo ∧ found.StationID = stationID
  | Stage.stationSelect _ _ stationID => stationID = ""
  | Stage.startDateSelect _ _ stationID selectedStation =>
    stationID = "" ∧ selectedStation ∈ stationInfo
  | Stage.endDateSelect _ _ stationID selectedStation _ =>
    stationID = "" ∧ selectedStation ∈ stationInfo
  | _ => True

/-! # Theorems -/

/-! ## The flattener -/

theorem withGroup_apply (recMap : JMap) (group : String) (body : JMap → Record → Record)
    (record : Record) (x : String) :
    withGroup recMap group body record x =
      match asMap (index recMap group) with
      | some g => body g record x
      | none => record x := by
  unfold withGroup
  cases asMap (index recMap group) <;> rfl

theorem withGroup_skip (recMap : JMap) (group : String) (body : JMap → Record → Record)
    (record : Record) (x : String) (h : ∀ g r, body g r x = r x) :
    withGroup recMap group body record x = record x := by
  unfold withGroup
  cases asMap (index recMap group) <;> simp [h]

/-- In a group that is a nested mapping, every row of the table gives the output
field the `%v` text of `g[subField]`; that text is `<nil>` when the sub-field is
missing. -/
theorem flatten_group_present (fmtFloat : Float64 → String) (recMap g : JMap)
    (group subField out : String) (hrow : (group, subField, out) ∈ fieldTable)
    (h : asMap (index recMap group) = some g) :
    flatten fmtFloat recMap out = some (sprintV fmtFloat (index g subField)) := by
  simp only [fieldTable, List.mem_cons, Prod.mk.injEq, List.mem_singleton, List.not_mem_nil,
    or_false] at hrow
  rcases hrow with
    ⟨rfl, rfl, rfl⟩ | ⟨rfl, rfl, rfl⟩ | ⟨rfl, rfl, rfl⟩ | ⟨rfl, rfl, rfl⟩ |
    ⟨rfl, rfl, rfl⟩ | ⟨rfl, rfl, rfl⟩ | ⟨rfl, rfl, rfl⟩ | ⟨rfl, rfl, rfl⟩ |
    ⟨rfl, rfl, rfl⟩ | ⟨rfl, rfl, rfl⟩ | ⟨rfl, rfl, rfl⟩ | ⟨rfl, rfl, rfl⟩ |
    ⟨rfl, rfl, rfl⟩ | ⟨rfl, rfl, rfl⟩ | ⟨rfl, rfl, rfl⟩ | ⟨rfl, rfl, rfl⟩ |
    ⟨rfl, rfl, rfl⟩ | ⟨rfl, rfl, rfl⟩ | ⟨rfl, rfl, rfl⟩ | ⟨rfl, rfl, rfl⟩ |
    ⟨rfl, rfl, rfl⟩ | ⟨rfl, rfl, rfl⟩ | ⟨rfl, rfl, rfl⟩ | ⟨rfl, rfl, rfl⟩ |
    ⟨rfl, rfl, rfl⟩ | ⟨rfl, rfl, rfl⟩ | ⟨rfl, rfl, rfl⟩ | ⟨rfl, rfl, rfl⟩
  all_goals
    unfold flatten
    cases List.lookup "DataDate" recMap <;>
      simp (disch := intros; simp [Record.set]) [withGroup_skip, withGroup_apply, h, Record.set]

/-- When the group is missing or is not a nested mapping, the output fields of
its rows stay unset. -/
theorem flatten_group_absent (fmtFloat : Float64 → String) (recMap : JMap)
    (group subField out : String) (hrow : (group, subField, out) ∈ fieldTable)
    (h : asMap (index recMap group) = none) :
    flatten fmtFloat recMap out = none := by
  simp only [fieldTable, List.mem_cons, Prod.mk.injEq, List.mem_singleton, List.not_mem_nil,
    or_false] at hrow
  rcases hrow with
    ⟨rfl, rfl, rfl⟩ | ⟨rfl, rfl, rfl⟩ | ⟨rfl, rfl, rfl⟩ | ⟨rfl, rfl, rfl⟩ |
    ⟨rfl, rfl, rfl⟩ | ⟨rfl, rfl, rfl⟩ | ⟨rfl, rfl, rfl⟩ | ⟨rfl, rfl, rfl⟩ |
    ⟨rfl, rfl, rfl⟩ | ⟨rfl, rfl, rfl⟩ | ⟨rfl, rfl, rfl⟩ | ⟨rfl, rfl, rfl⟩ |
    ⟨rfl, rfl, rfl⟩ | ⟨rfl, rfl, rfl⟩ | ⟨rfl, rfl, rfl⟩ | ⟨rfl, rfl, rfl⟩ |
    ⟨rfl, rfl, rfl⟩ | ⟨rfl, rfl, rfl⟩ | ⟨rfl, rfl, rfl⟩ | ⟨rfl, rfl, rfl⟩ |
    ⟨rfl, rfl, rfl⟩ | ⟨rfl, rfl, rfl⟩ | ⟨rfl, rfl, rfl⟩ | ⟨rfl, rfl, rfl⟩ |
    ⟨rfl, rfl, rfl⟩ | ⟨rfl, rfl, rfl⟩ | ⟨rfl, rfl, rfl⟩ | ⟨rfl, rfl, rfl⟩
  all_goals
    unfold flatten
    cases List.lookup "DataDate" recMap <;>
      simp (disch := intros; simp [Record.set])
        [withGroup_skip, withGroup_apply, h, Record.set, Record.empty]

/-- The field `DataDate` is the `%v` text of the top-level `DataDate` when the
key is there and stays unset otherwise. -/
theorem flatten_dataDate (fmtFloat : Float64 → String) (recMap : JMap) :
    flatten fmtFloat recMap "DataDate" = (recMap.lookup "DataDate").map (sprintV fmtFloat) := by
  unfold flatten
  cases List.lookup "DataDate" recMap <;>
    simp (disch := intros; simp [Record.set])
      [withGroup_skip, withGroup_apply, Record.set, Record.empty]

/-- C1, evaluated on the observation of the specification,
`{"AirTemperature": {"Mean": 21.3}, "DataDate": "2023-01-01"}`: the row written
for it holds `DataDate`, the text of 21.3 in `MeanAirTemperature`, and the text
`<nil>`, not the empty string, in `MaxAirTemperature`, `MinAirTemperature`,
`MaxAirTemperatureTime` and `MinAirTemperatureTime`, whose sub-fields are missing
from the group that is present; the other 23 fields are empty. -/
theorem flatten_missing_subfield_is_nil_text (fmtFloat : Float64 → String) :
    recordRow (flatten fmtFloat meanOnly) =
      [ "2023-01-01", "", "", "", "<nil>", fmtFloat f21_3, "<nil>", "<nil>", "<nil>",
        "", "", "", "", "", "", "", "", "", "", "", "", "", "", "", "", "", "", "", "" ] ∧
    (flatten fmtFloat meanOnly).get "MaxAirTemperature" = "<nil>" := by
  constructor <;> rfl

/-! ## The CSV writer and the schema -/

theorem writeRecords_ok (disk : Disk) (hwrite : ∀ k, disk.writeFails k = false)
    (records : List Record) (k : Nat) (out : List Row) :
    writeRecords disk k records out = ⟨none, some (out ++ records.map recordRow)⟩ := by
  induction records generalizing k out with
  | nil => simp [writeRecords]
  | cons rec rest ih => simp [writeRecords, hwrite, ih]

theorem recordRow_get (rec : Record) (i : Nat) (col : String)
    (hcol : csvColumns.get? i = some col) :
    (recordRow rec).get? i = some (match rec col with | some v => v | none => "") := by
  have h : (recordRow rec).get? i = some (rec.get col) := by
    simp only [recordRow, List.get?_eq_getElem?, List.getElem?_map] at hcol ⊢
    rw [hcol]; rfl
  rw [h]
  unfold Record.get
  cases rec col <;> rfl

/-- C8: on a disk where creating and writing succeed, `writeCSV` returns no
error and the file holds the header followed by one row per record in input
order, `n + 1` rows for `n` records; the header and every row have 29 fields,
and field `i` of a row is the record's value for column `i`, the empty string
when the record has no such key. -/
theorem writeCSV_emits_header_and_full_rows (disk : Disk) (records : List Record)
    (hcreate : disk.createFails = false) (hwrite : ∀ k, disk.writeFails k = false) :
    (writeCSV disk records).err = none ∧
    (writeCSV disk records).file = some (csvColumns :: records.map recordRow) ∧
    (csvColumns :: records.map recordRow).length = records.length + 1 ∧
    csvColumns.length = 29 ∧
    (∀ row ∈ records.map recordRow, row.length = 29) ∧
    (∀ rec ∈ records, ∀ i col, csvColumns.get? i = some col →
      (recordRow rec).get? i = some (match rec col with | some v => v | none => "")) := by
  have hfile : writeCSV disk records = ⟨none, some (csvColumns :: records.map recordRow)⟩ := by
    simp [writeCSV, hcreate, hwrite, writeRecords_ok]
  refine ⟨by rw [hfile], by rw [hfile], by simp, by decide, ?_, ?_⟩
  · intro row hrow
    simp only [List.mem_map] at hrow
    obtain ⟨rec, _, rfl⟩ := hrow
    simp [recordRow, csvColumns]
  · intro rec _ i col hcol
    exact recordRow_get rec i col hcol

/-- Two records give exactly three rows, the header and two rows of 29 fields. -/
theorem writeCSV_emits_header_and_full_rows_witness :
    (writeCSV goodDisk twoRecords).err = none ∧
    (writeCSV goodDisk twoRecords).file = some (csvColumns :: twoRecords.map recordRow) ∧
    (csvColumns :: twoRecords.map recordRow).length = 2 + 1 ∧
    csvColumns.length = 29 ∧
    (∀ row ∈ twoRecords.map recordRow, row.length = 29) ∧
    (∀ rec ∈ twoRecords, ∀ i col, csvColumns.get? i = some col →
      (recordRow rec).get? i = some (match rec col with | some v => v | none => "")) :=
  writeCSV_emits_header_and_full_rows goodDisk twoRecords rfl (fun _ => rfl)

theorem empty_keys : ∀ k, Record.empty k ≠ none → k ∈ csvColumns := by
  intro k h
  exact absurd rfl h

theorem set_keys (record : Record) (c v : String) (hc : c ∈ csvColumns)
    (hr : ∀ k, record k ≠ none → k ∈ csvColumns) :
    ∀ k, record.set c v k ≠ none → k ∈ csvColumns := by
  intro k h
  unfold Record.set at h
  by_cases hk : k = c
  · rw [hk]; exact hc
  · rw [if_neg hk] at h; exact hr k h

theorem withGroup_keys (recMap : JMap) (group : String) (body : JMap → Record → Record)
    (record : Record)
    (hb : ∀ g r, (∀ k, r k ≠ none → k ∈ csvColumns) → ∀ k, body g r k ≠ none → k ∈ csvColumns)
    (hr : ∀ k, record k ≠ none → k ∈ csvColumns) :
    ∀ k, withGroup recMap group body record k ≠ none → k ∈ csvColumns := by
  unfold withGroup
  cases asMap (index recMap group) with
  | none => exact hr
  | some g => exact hb g record hr

/-- Every key the flattener assigns is a column of `csvColumns`. -/
theorem flatten_keys (fmtFloat : Float64 → String) (recMap : JMap) :
    ∀ k, flatten fmtFloat recMap k ≠ none → k ∈ csvColumns := by
  simp only [flatten]
  cases List.lookup "DataDate" recMap <;>
    repeat' first
      | exact empty_keys
      | assumption
      | apply set_keys _ _ _ (by decide)
      | apply withGroup_keys
      | intro _ _ _

/-- C9: `csvColumns` is the header of section 6 of the specification, in its
order, 29 names without a repetition; every key the flattener assigns is one of
them and reaches the row at its column, and for every column some observation
makes the flattener assign it. -/
theorem schema_agreement :
    csvColumns = specColumns ∧ csvColumns.Nodup ∧ csvColumns.length = 29 ∧
    (∀ (fmtFloat : Float64 → String) (recMap : JMap) (k v : String),
      flatten fmtFloat recMap k = some v →
        ∃ i, csvColumns.get? i = some k ∧
          (recordRow (flatten fmtFloat recMap)).get? i = some v) ∧
    (∀ c ∈ csvColumns, ∃ recMap : JMap, ∀ fmtFloat : Float64 → String,
      flatten fmtFloat recMap c ≠ none) := by
  refine ⟨rfl, by decide, by decide, ?_, ?_⟩
  · intro fmtFloat recMap k v hkv
    have hmem : k ∈ csvColumns := flatten_keys fmtFloat recMap k (by rw [hkv]; simp)
    obtain ⟨i, hi, hget⟩ := List.getElem_of_mem hmem
    refine ⟨i, ?_, ?_⟩
    · rw [List.get?_eq_getElem?, List.getElem?_eq_getElem hi, hget]
    · rw [recordRow_get _ i k (by rw [List.get?_eq_getElem?, List.getElem?_eq_getElem hi, hget]),
        hkv]
  · intro c hc
    refine ⟨allGroups, fun fmtFloat => ?_⟩
    simp only [csvColumns, List.mem_cons, List.mem_singleton, List.not_mem_nil, or_false] at hc
    rcases hc with
      rfl | rfl | rfl | rfl | rfl | rfl | rfl | rfl | rfl | rfl |
      rfl | rfl | rfl | rfl | rfl | rfl | rfl | rfl | rfl | rfl |
      rfl | rfl | rfl | rfl | rfl | rfl | rfl | rfl | rfl
    all_goals
      intro h
      exact Option.noConfusion (show (some _ : Option String) = none from h)

/-! ## The fetch client -/

theorem attempts_retry (fmtFloat : Float64 → String) (unmarshal : String → Option JMap)
    (server : Nat → Resp) (stationID : String) (timeStart timeEnd : Int) (n : Nat) :
    ∀ (fuel i waitDuration : Nat), i + n ≤ retryCount →
      (∀ j, j < n → retryable (server (i + j)) = true) →
      (attempts fmtFloat unmarshal server stationID timeStart timeEnd
          (fuel + n) i waitDuration).result =
        (attempts fmtFloat unmarshal server stationID timeStart timeEnd
          fuel (i + n) (waitDuration * 2 ^ n)).result ∧
      (attempts fmtFloat unmarshal server stationID timeStart timeEnd
          (fuel + n) i waitDuration).events =
        backoff stationID timeStart timeEnd n waitDuration ++
          (attempts fmtFloat unmarshal server stationID timeStart timeEnd
            fuel (i + n) (waitDuration * 2 ^ n)).events := by
  induction n with
  | zero => intro fuel i w _ _; simp [backoff]
  | succ n ih =>
    intro fuel i w hi hretry
    have hlt : i < retryCount := by omega
    have h0 := hretry 0 (Nat.succ_pos n)
    obtain ⟨ihr, ihe⟩ := ih fuel (i + 1) (w * 2) (by omega) (fun j hj => by
      have := hretry (j + 1) (by omega)
      rwa [show i + 1 + j = i + (j + 1) by omega])
    have hpow : w * 2 * 2 ^ n = w * 2 ^ (n + 1) := by ring
    have hidx : i + 1 + n = i + (n + 1) := by omega
    rw [hpow, hidx] at ihr ihe
    rw [show fuel + (n + 1) = (fuel + n) + 1 by omega]
    simp only [Nat.add_zero] at h0
    cases hs : server i with
    | netErr =>
      simp only [attempts, hs, hlt, if_true, backoff, List.cons_append]
      exact ⟨ihr, by rw [ihe]⟩
    | http status body =>
      rw [hs] at h0
      simp only [retryable, Bool.and_eq_true, decide_eq_true_eq] at h0
      simp only [attempts, hs, h0.1, h0.2, hlt, if_true, if_false, backoff, List.cons_append]
      exact ⟨ihr, by rw [ihe]⟩

theorem getStationData_reaches (fmtFloat : Float64 → String) (unmarshal : String → Option JMap)
    (server : Nat → Resp) (stationID : String) (timeStart timeEnd : Int) (n : Nat)
    (hn : n ≤ retryCount) (hretry : ∀ j, j < n → retryable (server j) = true) :
    (getStationData fmtFloat unmarshal server stationID timeStart timeEnd).result =
      (attempts fmtFloat unmarshal server stationID timeStart timeEnd
        (retryCount - n + 1) n (2 ^ n)).result ∧
    (getStationData fmtFloat unmarshal server stationID timeStart timeEnd).events =
      backoff stationID timeStart timeEnd n 1 ++
        (attempts fmtFloat unmarshal server stationID timeStart timeEnd
          (retryCount - n + 1) n (2 ^ n)).events := by
  have h := attempts_retry fmtFloat unmarshal server stationID timeStart timeEnd n
    (retryCount - n + 1) 0 1 (by omega) (fun j hj => by simpa using hretry j hj)
  have hfuel : retryCount - n + 1 + n = retryCount + 1 := by omega
  simp only [hfuel, Nat.zero_add, Nat.one_mul] at h
  exact h

/-- C2, as the specification words it, fails: when every answer is a 503 the
waits are 1, 2 and 4 seconds, not 1, 2, 4 and 8. -/
theorem persistent_503_never_waits_8s :
    sleeps (getStationData fmtSample rejectAll always503 "C0A520" 0 31).events = [1, 2, 4] ∧
    sleeps (getStationData fmtSample rejectAll always503 "C0A520" 0 31).events ≠ [1, 2, 4, 8] := by
  decide

/-- C2, amended: when every attempt is answered with a status `>= 500`, the call
makes four requests, waits 1, 2 and 4 seconds between them (nothing after the
fourth), and returns the exhausted-retries error of the last status, with no
records. -/
theorem persistent_5xx_exhausts_retries (fmtFloat : Float64 → String)
    (unmarshal : String → Option JMap) (server : Nat → Resp) (stationID : String)
    (timeStart timeEnd : Int)
    (h5xx : ∀ i, i ≤ retryCount → ∃ status body, server i = Resp.http status body ∧ 500 ≤ status) :
    ∃ status body, server retryCount = Resp.http status body ∧
      (getStationData fmtFloat unmarshal server stationID timeStart timeEnd).result =
        Except.error (FetchErr.serverExhausted status) ∧
      (getStationData fmtFloat unmarshal server stationID timeStart timeEnd).events =
        [ Event.post stationID timeStart timeEnd, Event.sleep 1,
          Event.post stationID timeStart timeEnd, Event.sleep 2,
          Event.post stationID timeStart timeEnd, Event.sleep 4,
          Event.post stationID timeStart timeEnd ] ∧
      posts (getStationData fmtFloat unmarshal server stationID timeStart timeEnd).events = 4 ∧
      sleeps (getStationData fmtFloat unmarshal server stationID timeStart timeEnd).events =
        [1, 2, 4] := by
  obtain ⟨status, body, hs, hge⟩ := h5xx retryCount (Nat.le_refl _)
  have hne : status ≠ 200 := by omega
  have hreach := getStationData_reaches fmtFloat unmarshal server stationID timeStart timeEnd
    retryCount (Nat.le_refl _) (fun j hj => by
      obtain ⟨s, b, hsj, hgej⟩ := h5xx j (Nat.le_of_lt hj)
      have : s ≠ 200 := by omega
      simp [hsj, retryable, this, hgej])
  have hlast : attempts fmtFloat unmarshal server stationID timeStart timeEnd
      (retryCount - retryCount + 1) retryCount (2 ^ retryCount) =
      ⟨Except.error (FetchErr.serverExhausted status),
        [Event.post stationID timeStart timeEnd]⟩ := by
    simp [attempts, hs, hne, hge]
  rw [hlast] at hreach
  obtain ⟨hres, hev⟩ := hreach
  refine ⟨status, body, hs, hres, ?_, ?_, ?_⟩
  · rw [hev]; rfl
  · rw [hev]; rfl
  · rw [hev]; rfl

/-- A server that always answers 503: four requests, waits of 1, 2 and 4
seconds, then the exhausted-retries error. -/
theorem persistent_5xx_exhausts_retries_witness :
    ∃ status body, always503 retryCount = Resp.http status body ∧
      (getStationData fmtSample rejectAll always503 "C0A520" 0 31).result =
        Except.error (FetchErr.serverExhausted status) ∧
      (getStationData fmtSample rejectAll always503 "C0A520" 0 31).events =
        [ Event.post "C0A520" 0 31, Event.sleep 1, Event.post "C0A520" 0 31, Event.sleep 2,
          Event.post "C0A520" 0 31, Event.sleep 4, Event.post "C0A520" 0 31 ] ∧
      posts (getStationData fmtSample rejectAll always503 "C0A520" 0 31).events = 4 ∧
      sleeps (getStationData fmtSample rejectAll always503 "C0A520" 0 31).events = [1, 2, 4] :=
  persistent_5xx_exhausts_retries fmtSample rejectAll always503 "C0A520" 0 31
    (fun _ _ => ⟨503, none, rfl, by decide⟩)

/-- C3, as the specification words it, fails: the status 600 is neither 200 nor
in the class 5xx (500 to 599), yet the call does not fail at once; line 288
tests `StatusCode >= 500`, so it waits 1, 2 and 4 seconds, sends four requests
and returns the exhausted-retries error, not the status error. -/
theorem status_600_is_retried :
    (600 : Nat) ≠ 200 ∧ ¬ (500 ≤ 600 ∧ 600 ≤ 599) ∧
    (getStationData fmtSample rejectAll always600 "C0A520" 0 31).events =
      [ Event.post "C0A520" 0 31, Event.sleep 1, Event.post "C0A520" 0 31, Event.sleep 2,
        Event.post "C0A520" 0 31, Event.sleep 4, Event.post "C0A520" 0 31 ] ∧
    (getStationData fmtSample rejectAll always600 "C0A520" 0 31).events ≠
      [Event.post "C0A520" 0 31] ∧
    posts (getStationData fmtSample rejectAll always600 "C0A520" 0 31).events = 4 ∧
    sleeps (getStationData fmtSample rejectAll always600 "C0A520" 0 31).events = [1, 2, 4] ∧
    (getStationData fmtSample rejectAll always600 "C0A520" 0 31).result =
      Except.error (FetchErr.serverExhausted 600) := by
  refine ⟨by decide, by decide, by decide, by decide, by decide, by decide, rfl⟩

/-- C3, amended: whenever an attempt is reached (the earlier ones, if any, each
ended in a wait) and its status is neither 200 nor `>= 500`, the call returns the status
error with no records, and that request is its last effect: no sleep and no
request follow it.  On the first attempt that is one request and no wait. -/
theorem permanent_status_fails_at_once (fmtFloat : Float64 → String)
    (unmarshal : String → Option JMap) (server : Nat → Resp) (stationID : String)
    (timeStart timeEnd : Int) (n status : Nat) (body : Option String)
    (hn : n ≤ retryCount) (hretry : ∀ j, j < n → retryable (server j) = true)
    (hresp : server n = Resp.http status body) (h200 : status ≠ 200) (h5xx : ¬ 500 ≤ status) :
    (getStationData fmtFloat unmarshal server stationID timeStart timeEnd).result =
      Except.error (FetchErr.status status) ∧
    (getStationData fmtFloat unmarshal server stationID timeStart timeEnd).events =
      backoff stationID timeStart timeEnd n 1 ++ [Event.post stationID timeStart timeEnd] ∧
    (n = 0 →
      (getStationData fmtFloat unmarshal server stationID timeStart timeEnd).events =
        [Event.post stationID timeStart timeEnd]) := by
  have hreach := getStationData_reaches fmtFloat unmarshal server stationID timeStart timeEnd
    n hn hretry
  have hlast : attempts fmtFloat unmarshal server stationID timeStart timeEnd
      (retryCount - n + 1) n (2 ^ n) =
      ⟨Except.error (FetchErr.status status), [Event.post stationID timeStart timeEnd]⟩ := by
    simp [attempts, hresp, h200, h5xx]
  rw [hlast] at hreach
  refine ⟨hreach.1, hreach.2, ?_⟩
  intro h0
  subst h0
  rw [hreach.2]; rfl

/-- A 404 on the first attempt: one request, no wait, the status error. -/
theorem permanent_status_fails_at_once_witness :
    (getStationData fmtSample rejectAll always404 "C0A520" 0 31).result =
      Except.error (FetchErr.status 404) ∧
    (getStationData fmtSample rejectAll always404 "C0A520" 0 31).events =
      backoff "C0A520" 0 31 0 1 ++ [Event.post "C0A520" 0 31] ∧
    (0 = 0 →
      (getStationData fmtSample rejectAll always404 "C0A520" 0 31).events =
        [Event.post "C0A520" 0 31]) :=
  permanent_status_fails_at_once fmtSample rejectAll always404 "C0A520" 0 31 0 404 none
    (by decide) (fun _ hj => absurd hj (Nat.not_lt_zero _)) rfl (by decide) (by decide)

theorem dropWhile_head_false {α : Type} (p : α → Bool) (s : List α) (c : α) (t : List α)
    (h : s.dropWhile p = c :: t) : p c = false := by
  induction s with
  | nil => simp at h
  | cons a s ih =>
    by_cases ha : p a = true
    · rw [List.dropWhile_cons_of_pos ha] at h; exact ih h
    · rw [List.dropWhile_cons_of_neg ha] at h
      cases h
      simpa using ha

theorem dropWhile_append_last {α : Type} (p : α → Bool) (xs : List α) (c : α)
    (hc : p c = false) : (xs ++ [c]).dropWhile p = xs.dropWhile p ++ [c] := by
  induction xs with
  | nil => simp [List.dropWhile, hc]
  | cons a xs ih =>
    by_cases ha : p a = true
    · simp [List.dropWhile, ha, ih]
    · simp [List.dropWhile, ha]

/-- The test of the source on the trimmed body is the test on the first
character that is not white space. -/
theorem htmlLike_iff (body : String) : htmlLike body = true ↔ firstNonSpace body = some '<' := by
  unfold htmlLike firstNonSpace trimSpace
  cases h : body.toList.dropWhile isSpace with
  | nil => simp
  | cons c t =>
    have hc := dropWhile_head_false isSpace _ c t h
    rw [List.reverse_cons, dropWhile_append_last isSpace _ c hc]
    simp

theorem decodeResult_path (fmtFloat : Float64 → String) (result : JMap) :
    (∃ dts, dtsPath result = some dts ∧
      decodeResult fmtFloat result = Except.ok (flattenAll fmtFloat dts)) ∨
    (dtsPath result = none ∧
      (decodeResult fmtFloat result = Except.error FetchErr.shape ∨
        decodeResult fmtFloat result = Except.error FetchErr.dts)) := by
  unfold dtsPath decodeResult index
  cases hd : result.lookup "data" with
  | none => simp [asSlice]
  | some d =>
    cases d with
    | arr xs =>
      cases xs with
      | nil => simp [asSlice]
      | cons first rest =>
        cases first with
        | obj kvs =>
          simp only [Option.getD_some, asSlice, asMap]
          cases hk : kvs.lookup "dts" with
          | none => simp
          | some v => cases v <;> simp
        | _ => simp [asSlice, asMap]
    | _ => simp [asSlice]

/-- The loop over `dts` gives one record per element that is an object, in
order: the record `flatten` builds from it. -/
theorem flattenAll_eq (fmtFloat : Float64 → String) (dts : List JVal) :
    flattenAll fmtFloat dts = (objects dts).map (flatten fmtFloat) := by
  induction dts with
  | nil => rfl
  | cons v rest ih =>
    have hcons : flattenAll fmtFloat (v :: rest) =
        match asMap v with
        | some m => flatten fmtFloat m :: flattenAll fmtFloat rest
        | none => flattenAll fmtFloat rest := by
      unfold flattenAll
      rw [List.filterMap_cons]
      cases asMap v <;> rfl
    rw [hcons, ih]
    cases v <;> rfl

/-- C4: whenever an attempt is reached and is answered with status 200 and a
body that can be read, that request is the last effect of the call (nothing is
retried).  The call returns an error when the first character of the body that
is not white space is `<` (the markup error), or the body does not decode to a
JSON object (the decoding error), or the path `data[0].dts` is absent or is not
a list (one of the two structure errors); when the body decodes and
`data[0].dts` is a list, the call returns one record for every element of that
list that is an object, in order, namely the record `flatten` builds from it. -/
theorem response_validation (fmtFloat : Float64 → String)
    (unmarshal : String → Option JMap) (server : Nat → Resp) (stationID : String)
    (timeStart timeEnd : Int) (n : Nat) (body : String)
    (hn : n ≤ retryCount) (hretry : ∀ j, j < n → retryable (server j) = true)
    (hresp : server n = Resp.http 200 (some body)) :
    (getStationData fmtFloat unmarshal server stationID timeStart timeEnd).events =
      backoff stationID timeStart timeEnd n 1 ++ [Event.post stationID timeStart timeEnd] ∧
    ((firstNonSpace body = some '<' ∨ unmarshal body = none ∨
        ∃ result, unmarshal body = some result ∧ dtsPath result = none) →
      ∃ err, (getStationData fmtFloat unmarshal server stationID timeStart timeEnd).result =
        Except.error err) ∧
    (firstNonSpace body = some '<' →
      (getStationData fmtFloat unmarshal server stationID timeStart timeEnd).result =
        Except.error (FetchErr.html body)) ∧
    (firstNonSpace body ≠ some '<' → unmarshal body = none →
      (getStationData fmtFloat unmarshal server stationID timeStart timeEnd).result =
        Except.error FetchErr.json) ∧
    (∀ result, firstNonSpace body ≠ some '<' → unmarshal body = some result →
      dtsPath result = none →
      (getStationData fmtFloat unmarshal server stationID timeStart timeEnd).result =
          Except.error FetchErr.shape ∨
        (getStationData fmtFloat unmarshal server stationID timeStart timeEnd).result =
          Except.error FetchErr.dts) ∧
    (∀ result dts, firstNonSpace body ≠ some '<' → unmarshal body = some result →
      dtsPath result = some dts →
      (getStationData fmtFloat unmarshal server stationID timeStart timeEnd).result =
        Except.ok ((objects dts).map (flatten fmtFloat))) := by
  have hreach := getStationData_reaches fmtFloat unmarshal server stationID timeStart timeEnd
    n hn hretry
  have hlast : attempts fmtFloat unmarshal server stationID timeStart timeEnd
      (retryCount - n + 1) n (2 ^ n) =
      ⟨decodeBody fmtFloat unmarshal (some body), [Event.post stationID timeStart timeEnd]⟩ := by
    simp [attempts, hresp]
  rw [hlast] at hreach
  obtain ⟨hres, hev⟩ := hreach
  simp only at hres
  have hhtml : firstNonSpace body = some '<' →
      decodeBody fmtFloat unmarshal (some body) = Except.error (FetchErr.html body) := by
    intro hlt
    have hh : htmlLike body = true := (htmlLike_iff body).2 hlt
    simp [decodeBody, hh]
  have hjson : firstNonSpace body ≠ some '<' → unmarshal body = none →
      decodeBody fmtFloat unmarshal (some body) = Except.error FetchErr.json := by
    intro hnot hnone
    have hh : ¬ htmlLike body = true := fun hc => hnot ((htmlLike_iff body).1 hc)
    simp [decodeBody, hh, hnone]
  have hdec : ∀ result, firstNonSpace body ≠ some '<' → unmarshal body = some result →
      decodeBody fmtFloat unmarshal (some body) = decodeResult fmtFloat result := by
    intro result hnot hsome
    have hh : ¬ htmlLike body = true := fun hc => hnot ((htmlLike_iff body).1 hc)
    simp [decodeBody, hh, hsome]
  have hpath : ∀ result, firstNonSpace body ≠ some '<' → unmarshal body = some result →
      dtsPath result = none →
      decodeBody fmtFloat unmarshal (some body) = Except.error FetchErr.shape ∨
        decodeBody fmtFloat unmarshal (some body) = Except.error FetchErr.dts := by
    intro result hnot hsome hnone
    rw [hdec result hnot hsome]
    rcases decodeResult_path fmtFloat result with ⟨dts, hd, _⟩ | ⟨_, hcases⟩
    · rw [hnone] at hd; cases hd
    · exact hcases
  rw [hres]
  refine ⟨hev, ?_, hhtml, hjson, hpath, ?_⟩
  · intro hbad
    by_cases hlt : firstNonSpace body = some '<'
    · exact ⟨_, hhtml hlt⟩
    · rcases hbad with h1 | hnone | ⟨result, hsome, hnone⟩
      · exact absurd h1 hlt
      · exact ⟨_, hjson hlt hnone⟩
      · rcases hpath result hlt hsome hnone with h | h
        · exact ⟨_, h⟩
        · exact ⟨_, h⟩
  · intro result dts hnot hsome hsomePath
    rw [hdec result hnot hsome]
    rcases decodeResult_path fmtFloat result with ⟨dts2, hd, hok⟩ | ⟨hd, _⟩
    · rw [hsomePath] at hd
      cases hd
      rw [hok, flattenAll_eq]
    · rw [hsomePath] at hd; cases hd

/-- A 200 answer on the first attempt with the body
`{"data": [{"dts": [{"AirTemperature": {"Mean": 21.3}, "DataDate": "2023-01-01"}]}]}`,
decoded to that value: one request, and the one record of the observation,
whose row holds `DataDate` and the text of 21.3.  The bodies `{}`, `<html>`
(also behind white space) and `oops` give the structure, markup and decoding
errors. -/
theorem response_validation_witness :
    serve sampleBody 0 = Resp.http 200 (some sampleBody) ∧
    firstNonSpace sampleBody ≠ some '<' ∧
    decodeSample sampleBody =
      some [("data", JVal.arr [JVal.obj [("dts", JVal.arr [JVal.obj meanOnly])]])] ∧
    dtsPath [("data", JVal.arr [JVal.obj [("dts", JVal.arr [JVal.obj meanOnly])]])] =
      some [JVal.obj meanOnly] ∧
    (getStationData fmtSample decodeSample (serve sampleBody) "C0A520" 0 31).events =
      [Event.post "C0A520" 0 31] ∧
    (getStationData fmtSample decodeSample (serve sampleBody) "C0A520" 0 31).result =
      Except.ok [flatten fmtSample meanOnly] ∧
    rowsOf (getStationData fmtSample decodeSample (serve sampleBody) "C0A520" 0 31).result =
      some [[ "2023-01-01", "", "", "", "<nil>", "21.3", "<nil>", "<nil>", "<nil>",
        "", "", "", "", "", "", "", "", "", "", "", "", "", "", "", "", "", "", "", "" ]] ∧
    (getStationData fmtSample decodeSample (serve "{}") "C0A520" 0 31).result =
      Except.error FetchErr.shape ∧
    (getStationData fmtSample decodeSample (serve "<html>") "C0A520" 0 31).result =
      Except.error (FetchErr.html "<html>") ∧
    (getStationData fmtSample decodeSample (serve " \n\t<html>") "C0A520" 0 31).result =
      Except.error (FetchErr.html " \n\t<html>") ∧
    (getStationData fmtSample decodeSample (serve "oops") "C0A520" 0 31).result =
      Except.error FetchErr.json :=
  have h := response_validation fmtSample decodeSample (serve sampleBody) "C0A520" 0 31 0
    sampleBody (by decide) (fun _ hj => absurd hj (Nat.not_lt_zero _)) rfl
  have hdecoded : decodeSample sampleBody =
      some [("data", JVal.arr [JVal.obj [("dts", JVal.arr [JVal.obj meanOnly])]])] := rfl
  ⟨rfl, by decide, hdecoded, rfl, h.1,
    h.2.2.2.2.2 [("data", JVal.arr [JVal.obj [("dts", JVal.arr [JVal.obj meanOnly])]])]
      [JVal.obj meanOnly] (by decide) hdecoded rfl,
    by decide, rfl, rfl, rfl, rfl⟩

/-! ## The orchestrator -/

theorem fetched_append_write (before : List Step) (filename : String) (w : Written) :
    fetched (before ++ [Step.write filename w]) = fetched before := by
  induction before with
  | nil => rfl
  | cons st rest ih => cases st <;> simp [fetched, ih]

theorem window_iff (timeStart timeEnd : Int) :
    withinWindow (sub timeEnd timeStart) = true ↔ timeEnd - timeStart ≤ 366 := by
  simp only [withinWindow, sub, nsPerDay, maxDuration, minDuration, decide_eq_true_eq]
  norm_num
  split_ifs <;> omega

theorem totalDays_of_days (timeStart : Int) (days : Nat) :
    totalDaysOf (sub (timeStart + days) timeStart) = min (days : Int) 106751 := by
  simp only [totalDaysOf, sub, nsPerDay, maxDuration, minDuration, add_sub_cancel_left]
  norm_num
  by_cases h : (days : Int) ≤ 106751
  · rw [if_neg (by omega), if_neg (by omega), min_eq_left h]
    exact Int.mul_tdiv_cancel _ (by norm_num)
  · rw [if_pos (by omega), min_eq_right (by omega)]
    decide

theorem chunkLoop_done (fetch : String → Int → Int → Except FetchErr (List Record))
    (now : Int → Int) (stationID : String) (timeStart timeEnd totalDays : Int)
    (fuel : Nat) (i : Int) (allRecords : List Record) (hi : ¬ i < totalDays) :
    chunkLoop fetch now stationID timeStart timeEnd totalDays fuel i allRecords =
      ⟨Except.ok allRecords, []⟩ := by
  cases fuel with
  | zero => rfl
  | succ fuel => simp [chunkLoop, hi]

/-- The fuel of `processStationData` never runs out: with at least
`totalDays - i` iterations allowed, the loop does not depend on the bound. -/
theorem chunkLoop_fuel (fetch : String → Int → Int → Except FetchErr (List Record))
    (now : Int → Int) (stationID : String) (timeStart timeEnd totalDays : Int) :
    ∀ (fuel fuel2 : Nat) (i : Int) (allRecords : List Record),
      totalDays - i ≤ fuel → totalDays - i ≤ fuel2 →
      chunkLoop fetch now stationID timeStart timeEnd totalDays fuel i allRecords =
        chunkLoop fetch now stationID timeStart timeEnd totalDays fuel2 i allRecords := by
  intro fuel
  induction fuel with
  | zero =>
    intro fuel2 i allRecords h1 _
    rw [chunkLoop_done _ _ _ _ _ _ 0 _ _ (by simp at h1; omega),
      chunkLoop_done _ _ _ _ _ _ fuel2 _ _ (by simp at h1; omega)]
  | succ fuel ih =>
    intro fuel2 i allRecords h1 h2
    by_cases hi : i < totalDays
    · obtain ⟨fuel2, rfl⟩ : ∃ f, fuel2 = f + 1 := ⟨fuel2 - 1, by omega⟩
      have hrec := fun all => ih fuel2 (i + 366) all (by push_cast at h1; omega)
        (by push_cast at h2; omega)
      simp only [chunkLoop, hi, if_true, hrec]
    · rw [chunkLoop_done _ _ _ _ _ _ _ _ _ hi, chunkLoop_done _ _ _ _ _ _ _ _ _ hi]

/-- When every fetch succeeds and no stride starts after the clock reading of
its iteration, the loop fetches the remaining strides in order and returns the
accumulator followed by their records. -/
theorem chunkLoop_all (fetch : String → Int → Int → Except FetchErr (List Record))
    (now : Int → Int) (stationID : String) (timeStart timeEnd totalDays : Int)
    (hfetch : ∀ s e, ∃ records, fetch stationID s e = Except.ok records)
    (hnow : ∀ k : Nat, 366 * (k : Int) < totalDays →
      after (timeStart + 366 * (k : Int)) (now (366 * (k : Int))) = false) :
    ∀ (count k fuel : Nat) (allRecords : List Record), count ≤ fuel →
      totalDays ≤ 366 * ((k : Int) + count) →
      (0 < count → 366 * ((k : Int) + count - 1) < totalDays) →
      (chunkLoop fetch now stationID timeStart timeEnd totalDays fuel
          (366 * (k : Int)) allRecords).result =
        Except.ok (allRecords ++ gather fetch stationID (stridesFrom timeStart timeEnd k count)) ∧
      (chunkLoop fetch now stationID timeStart timeEnd totalDays fuel
          (366 * (k : Int)) allRecords).steps =
        (stridesFrom timeStart timeEnd k count).map (fun p => Step.fetch stationID p.1 p.2) := by
  intro count
  induction count with
  | zero =>
    intro k fuel allRecords _ hge _
    rw [chunkLoop_done _ _ _ _ _ _ _ _ _ (by simp at hge; omega)]
    simp [stridesFrom, gather]
  | succ count ih =>
    intro k fuel allRecords hfuel hge hlt
    obtain ⟨fuel, rfl⟩ : ∃ f, fuel = f + 1 := ⟨fuel - 1, by omega⟩
    have hi : 366 * (k : Int) < totalDays := by
      have := hlt (Nat.succ_pos _)
      push_cast at this
      omega
    obtain ⟨records, hrec⟩ := hfetch (timeStart + 366 * (k : Int))
      (if timeStart + (366 * (k : Int) + 366) > timeEnd then timeEnd
        else timeStart + (366 * (k : Int) + 366))
    have hend : (if timeStart + (366 * (k : Int) + 366) > timeEnd then timeEnd
        else timeStart + (366 * (k : Int) + 366)) =
        min (timeStart + 366 * ((k : Int) + 1)) timeEnd := by
      rw [show timeStart + 366 * ((k : Int) + 1) = timeStart + (366 * (k : Int) + 366) by ring]
      split_ifs with h
      · rw [min_eq_right (le_of_lt h)]
      · rw [min_eq_left (not_lt.1 h)]
    obtain ⟨ihr, ihs⟩ := ih (k + 1) fuel (allRecords ++ records) (by omega)
      (by push_cast at hge ⊢; omega)
      (fun hc => by
        have := hlt (Nat.succ_pos _)
        push_cast at this ⊢
        omega)
    have hnext : (366 : Int) * ((k + 1 : Nat) : Int) = 366 * (k : Int) + 366 := by
      push_cast; ring
    rw [hnext] at ihr ihs
    simp only [chunkLoop, hi, if_true, hnow k hi, Bool.false_eq_true, if_false, hrec]
    refine ⟨?_, ?_⟩
    · rw [ihr]
      simp only [stridesFrom, gather, ← hend, hrec, List.append_assoc]
    · simp only [ihs, stridesFrom, hend, List.map_cons]

/-- The fetches of the loop never start after the clock reading of their
iteration. -/
theorem chunkLoop_not_future (fetch : String → Int → Int → Except FetchErr (List Record))
    (now : Int → Int) (stationID : String) (timeStart timeEnd totalDays : Int) :
    ∀ (fuel : Nat) (i : Int) (allRecords : List Record) (s e : Int),
      (s, e) ∈ fetched (chunkLoop fetch now stationID timeStart timeEnd totalDays
        fuel i allRecords).steps →
      after s (now (s - timeStart)) = false := by
  intro fuel
  induction fuel with
  | zero => intro i allRecords s e h; simp [chunkLoop, fetched] at h
  | succ fuel ih =>
    intro i allRecords s e h
    simp only [chunkLoop] at h
    by_cases hi : i < totalDays
    · simp only [hi, if_true] at h
      by_cases ha : after (timeStart + i) (now i) = true
      · simp only [ha, if_true] at h
        exact ih _ _ s e h
      · simp only [ha, Bool.false_eq_true, if_false] at h
        have hskip : after (timeStart + i) (now (timeStart + i - timeStart)) = false := by
          rw [add_sub_cancel_left]; simpa using ha
        cases hf : fetch stationID (timeStart + i)
            (if timeStart + (i + 366) > timeEnd then timeEnd else timeStart + (i + 366)) with
        | error err =>
          rw [hf] at h
          simp only [fetched, List.mem_singleton, Prod.mk.injEq] at h
          rw [h.1]; exact hskip
        | ok records =>
          rw [hf] at h
          simp only [fetched, List.mem_cons, Prod.mk.injEq] at h
          rcases h with ⟨hs, _⟩ | h
          · rw [hs]; exact hskip
          · exact ih _ _ s e h
    · simp [hi, fetched] at h

/-- When every stride starts after the clock reading, the loop fetches nothing
and leaves the accumulator as it was. -/
theorem chunkLoop_all_future (fetch : String → Int → Int → Except FetchErr (List Record))
    (now : Int → Int) (stationID : String) (timeStart timeEnd totalDays : Int)
    (hfuture : ∀ i, 0 ≤ i → after (timeStart + i) (now i) = true) :
    ∀ (fuel : Nat) (i : Int) (allRecords : List Record), 0 ≤ i →
      chunkLoop fetch now stationID timeStart timeEnd totalDays fuel i allRecords =
        ⟨Except.ok allRecords, []⟩ := by
  intro fuel
  induction fuel with
  | zero => intro i allRecords _; rfl
  | succ fuel ih =>
    intro i allRecords h0
    by_cases hi : i < totalDays
    · simp [chunkLoop, hi, hfuture i h0, ih (i + 366) allRecords (by omega)]
    · simp [chunkLoop, hi]

/-- The loop only fetches, and a fetch that failed is its last effect and its
result. -/
theorem chunkLoop_sound (fetch : String → Int → Int → Except FetchErr (List Record))
    (now : Int → Int) (stationID : String) (timeStart timeEnd totalDays : Int) :
    ∀ (fuel : Nat) (i : Int) (allRecords : List Record),
      wrote (chunkLoop fetch now stationID timeStart timeEnd totalDays
        fuel i allRecords).steps = false ∧
      ∀ s e cause,
        (s, e) ∈ fetched (chunkLoop fetch now stationID timeStart timeEnd totalDays
          fuel i allRecords).steps →
        fetch stationID s e = Except.error cause →
        (chunkLoop fetch now stationID timeStart timeEnd totalDays
          fuel i allRecords).result = Except.error cause ∧
        (chunkLoop fetch now stationID timeStart timeEnd totalDays
          fuel i allRecords).steps.getLast? = some (Step.fetch stationID s e) := by
  intro fuel
  induction fuel with
  | zero => intro i allRecords; simp [chunkLoop, fetched, wrote]
  | succ fuel ih =>
    intro i allRecords
    simp only [chunkLoop]
    by_cases hi : i < totalDays
    · simp only [hi, if_true]
      by_cases ha : after (timeStart + i) (now i) = true
      · simp only [ha, if_true]
        exact ih _ _
      · simp only [ha, Bool.false_eq_true, if_false]
        cases hf : fetch stationID (timeStart + i)
            (if timeStart + (i + 366) > timeEnd then timeEnd else timeStart + (i + 366)) with
        | error err =>
          refine ⟨rfl, ?_⟩
          intro s e cause hmem hfail
          simp only [fetched, List.mem_singleton, Prod.mk.injEq] at hmem
          obtain ⟨rfl, rfl⟩ := hmem
          rw [hf] at hfail
          cases hfail
          exact ⟨rfl, rfl⟩
        | ok records =>
          obtain ⟨ihw, ihf⟩ := ih (i + 366) (allRecords ++ records)
          refine ⟨by simpa [wrote] using ihw, ?_⟩
          intro s e cause hmem hfail
          simp only [fetched, List.mem_cons, Prod.mk.injEq] at hmem
          rcases hmem with ⟨rfl, rfl⟩ | hmem
          · rw [hf] at hfail; cases hfail
          · obtain ⟨hres, hlast⟩ := ihf s e cause hmem hfail
            refine ⟨hres, ?_⟩
            simp only
            rw [List.getLast?_cons, hlast]
            rfl
    · simp [hi, fetched, wrote]

theorem stridesFrom_length (rangeStart rangeEnd : Int) (count : Nat) :
    ∀ k, (stridesFrom rangeStart rangeEnd k count).length = count := by
  induction count with
  | zero => intro k; rfl
  | succ count ih => intro k; simp [stridesFrom, ih]

theorem stridesFrom_get (rangeStart rangeEnd : Int) (count : Nat) :
    ∀ k j, j < count →
      (stridesFrom rangeStart rangeEnd k count).get? j =
        some (rangeStart + 366 * ((k : Int) + j),
          min (rangeStart + 366 * ((k : Int) + j + 1)) rangeEnd) := by
  induction count with
  | zero => intro k j hj; omega
  | succ count ih =>
    intro k j hj
    cases j with
    | zero => simp [stridesFrom]
    | succ j =>
      simp only [stridesFrom, List.get?_cons_succ]
      rw [ih (k + 1) j (by omega)]
      push_cast
      simp only [Option.some.injEq, Prod.mk.injEq]
      constructor <;> ring_nf

/-- Chunking on ranges of at most 106872 days (the loop bound is computed from
a `time.Duration`, which holds at most 106751 days): for a range of `days`
whole days with `366 < days`, none of whose strides starts after the clock
reading, and fetches that all succeed, `processStationData` makes
`ceil (days / 366)` fetches, stride `j` being
`[timeStart + 366 j, min (timeStart + 366 (j + 1)) timeEnd]`; every stride is
non-empty and at most 366 days long, the last one ends at `timeEnd`, and the
records handed to `writeCSV` are those of the strides in order. -/
theorem chunking_covers_range (fetch : String → Int → Int → Except FetchErr (List Record))
    (now : Int → Int) (disk : Disk) (fmtDay : Int → String) (stationID : String)
    (timeStart : Int) (days : Nat) (hlong : 366 < days) (hfit : days ≤ 106872)
    (hfetch : ∀ s e, ∃ records, fetch stationID s e = Except.ok records)
    (hnow : ∀ k : Nat, 366 * k < days →
      after (timeStart + 366 * (k : Int)) (now (366 * (k : Int))) = false) :
    fetched (processStationData fetch now disk fmtDay stationID timeStart
        (timeStart + days)).steps = strides timeStart days ∧
    (strides timeStart days).length = (days + 365) / 366 ∧
    (∀ j, j < (days + 365) / 366 →
      ∃ s e, (strides timeStart days).get? j = some (s, e) ∧
        s = timeStart + 366 * (j : Int) ∧
        e = min (timeStart + 366 * ((j : Int) + 1)) (timeStart + days) ∧
        s < e ∧ e - s ≤ 366 ∧
        (j + 1 = (days + 365) / 366 → e = timeStart + days)) ∧
    (processStationData fetch now disk fmtDay stationID timeStart (timeStart + days)).steps =
      (strides timeStart days).map (fun p => Step.fetch stationID p.1 p.2) ++
        [Step.write
          (stationID ++ "_" ++ fmtDay timeStart ++ "_" ++ fmtDay (timeStart + days) ++ ".csv")
          (writeCSV disk (gather fetch stationID (strides timeStart days)))] := by
  have hwin : withinWindow (sub (timeStart + days) timeStart) = false := by
    have h := window_iff timeStart (timeStart + days)
    rw [add_sub_cancel_left] at h
    cases hw : withinWindow (sub (timeStart + days) timeStart) with
    | false => rfl
    | true => have := h.1 hw; omega
  have htotal := totalDays_of_days timeStart days
  have hmin : min (days : Int) 106751 = ((min days 106751 : Nat) : Int) := by
    push_cast; rfl
  rw [hmin] at htotal
  have hloop := chunkLoop_all fetch now stationID timeStart (timeStart + days)
    ((min days 106751 : Nat) : Int) hfetch
    (fun k hk => hnow k (by
      have : (366 : Int) * k < days := lt_of_lt_of_le hk (by push_cast; exact min_le_left _ _)
      exact_mod_cast this))
    ((days + 365) / 366) 0 (min days 106751) [] (by omega)
    (by push_cast; omega) (fun _ => by push_cast; omega)
  simp only [Nat.cast_zero, mul_zero, List.nil_append] at hloop
  obtain ⟨hres, hsteps⟩ := hloop
  have hrun : (processStationData fetch now disk fmtDay stationID timeStart
      (timeStart + days)).steps =
      (strides timeStart days).map (fun p => Step.fetch stationID p.1 p.2) ++
        [Step.write
          (stationID ++ "_" ++ fmtDay timeStart ++ "_" ++ fmtDay (timeStart + days) ++ ".csv")
          (writeCSV disk (gather fetch stationID (strides timeStart days)))] := by
    simp only [processStationData, hwin, Bool.false_eq_true, if_false, htotal, Int.toNat_ofNat,
      hres, hsteps, save, strides]
    cases (writeCSV disk (gather fetch stationID
      (stridesFrom timeStart (timeStart + days) 0 ((days + 365) / 366)))).err <;> rfl
  refine ⟨?_, ?_, ?_, hrun⟩
  · rw [hrun, fetched_append_write]
    generalize strides timeStart days = l
    induction l with
    | nil => rfl
    | cons p l ih => simp [fetched, ih]
  · exact stridesFrom_length _ _ _ _
  · intro j hj
    refine ⟨_, _, stridesFrom_get timeStart (timeStart + days) _ 0 j hj, by simp, by simp, ?_, ?_, ?_⟩
    · simp only [Nat.cast_zero, zero_add, lt_min_iff]; constructor <;> omega
    · simp only [Nat.cast_zero, zero_add]
      have := min_le_left (timeStart + 366 * ((j : Int) + 1)) (timeStart + days)
      omega
    · intro hlast
      simp only [Nat.cast_zero, zero_add]
      apply min_eq_right
      omega

/-- The 1000-day range of the specification: three strides of 366, 366 and 268
days, the last one ending at the end of the range. -/
theorem chunking_1000_days :
    fetched (processStationData fetchNothing clock2026 goodDisk dayText "C0A520" 0 1000).steps =
      [(0, 366), (366, 732), (732, 1000)] ∧
    strides 0 1000 = [(0, 366), (366, 732), (732, 1000)] := by
  decide

set_option maxRecDepth 100000 in
/-- C5, evaluated on the range 1700-01-01 .. 1992-08-11 (days -98615 and 8258 of
the epoch, 106873 whole days) with the clock at 2026-11-04: no stride starts
after the clock reading and `ceil (106873 / 366)` is 293, yet the run makes 292
fetches, the last of which ends at day 8257, one day before the end of the
range, and returns no error.  The loop bound `totalDays` is 106751, the whole
days in the largest `time.Duration`, because `Sub` saturates. -/
theorem chunking_stops_short_of_long_range :
    (8258 : Int) - (-98615) = 106873 ∧ (106873 + 365) / 366 = 293 ∧
    (∀ k : Nat, k < 293 →
      after (-98615 + 366 * (k : Int)) (clock2026 (366 * (k : Int))) = false) ∧
    totalDaysOf (sub 8258 (-98615)) = 106751 ∧
    (processStationData fetchNothing clock2026 goodDisk dayText "C0A520" (-98615) 8258).err =
      none ∧
    (fetched (processStationData fetchNothing clock2026 goodDisk dayText "C0A520"
      (-98615) 8258).steps).length = 292 ∧
    (fetched (processStationData fetchNothing clock2026 goodDisk dayText "C0A520"
      (-98615) 8258).steps).getLast? = some (7891, 8257) := by
  refine ⟨by decide, by decide, ?_, by decide, by decide, by decide, by decide⟩
  intro k hk
  simp only [after, clock2026, nsPerDay, decide_eq_false_iff_not, not_lt]
  omega

/-- When every fetch of a stride that does not start after the clock reading
succeeds, the loop fetches exactly those of the remaining strides, in order, and
returns the accumulator followed by their records; the strides that start after
the clock reading leave no effect and change nothing. -/
theorem chunkLoop_live (fetch : String → Int → Int → Except FetchErr (List Record))
    (now : Int → Int) (stationID : String) (timeStart timeEnd totalDays : Int) :
    ∀ (count k fuel : Nat) (allRecords : List Record), count ≤ fuel →
      totalDays ≤ 366 * ((k : Int) + count) →
      (0 < count → 366 * ((k : Int) + count - 1) < totalDays) →
      (∀ p ∈ (stridesFrom timeStart timeEnd k count).filter
          (fun p => !after p.1 (now (p.1 - timeStart))),
        ∃ records, fetch stationID p.1 p.2 = Except.ok records) →
      (chunkLoop fetch now stationID timeStart timeEnd totalDays fuel
          (366 * (k : Int)) allRecords).result =
        Except.ok (allRecords ++ gather fetch stationID
          ((stridesFrom timeStart timeEnd k count).filter
            (fun p => !after p.1 (now (p.1 - timeStart))))) ∧
      (chunkLoop fetch now stationID timeStart timeEnd totalDays fuel
          (366 * (k : Int)) allRecords).steps =
        ((stridesFrom timeStart timeEnd k count).filter
          (fun p => !after p.1 (now (p.1 - timeStart)))).map
          (fun p => Step.fetch stationID p.1 p.2) := by
  intro count
  induction count with
  | zero =>
    intro k fuel allRecords _ hge _ _
    rw [chunkLoop_done _ _ _ _ _ _ _ _ _ (by simp at hge; omega)]
    simp [stridesFrom, gather]
  | succ count ih =>
    intro k fuel allRecords hfuel hge hlt hfetch
    obtain ⟨fuel, rfl⟩ : ∃ f, fuel = f + 1 := ⟨fuel - 1, by omega⟩
    have hi : 366 * (k : Int) < totalDays := by
      have := hlt (Nat.succ_pos _)
      push_cast at this
      omega
    have hend : (if timeStart + (366 * (k : Int) + 366) > timeEnd then timeEnd
        else timeStart + (366 * (k : Int) + 366)) =
        min (timeStart + 366 * ((k : Int) + 1)) timeEnd := by
      rw [show timeStart + 366 * ((k : Int) + 1) = timeStart + (366 * (k : Int) + 366) by ring]
      split_ifs with h
      · rw [min_eq_right (le_of_lt h)]
      · rw [min_eq_left (not_lt.1 h)]
    have hnext : (366 : Int) * ((k + 1 : Nat) : Int) = 366 * (k : Int) + 366 := by
      push_cast; ring
    have hclock : now (timeStart + 366 * (k : Int) - timeStart) = now (366 * (k : Int)) := by
      rw [add_sub_cancel_left]
    have hrest := fun all hf => ih (k + 1) fuel all (by omega)
      (by push_cast at hge ⊢; omega)
      (fun hc => by
        have := hlt (Nat.succ_pos _)
        push_cast at this ⊢
        omega) hf
    by_cases ha : after (timeStart + 366 * (k : Int)) (now (366 * (k : Int))) = true
    · have hfilter : (stridesFrom timeStart timeEnd k (count + 1)).filter
          (fun p => !after p.1 (now (p.1 - timeStart))) =
          (stridesFrom timeStart timeEnd (k + 1) count).filter
            (fun p => !after p.1 (now (p.1 - timeStart))) := by
        simp [stridesFrom, List.filter_cons, hclock, ha]
      rw [hfilter] at hfetch ⊢
      obtain ⟨ihr, ihs⟩ := hrest allRecords hfetch
      rw [hnext] at ihr ihs
      simp only [chunkLoop, hi, if_true, ha]
      exact ⟨ihr, ihs⟩
    · have hfilter : (stridesFrom timeStart timeEnd k (count + 1)).filter
          (fun p => !after p.1 (now (p.1 - timeStart))) =
          (timeStart + 366 * (k : Int), min (timeStart + 366 * ((k : Int) + 1)) timeEnd) ::
          (stridesFrom timeStart timeEnd (k + 1) count).filter
            (fun p => !after p.1 (now (p.1 - timeStart))) := by
        simp [stridesFrom, List.filter_cons, hclock, ha]
      rw [hfilter] at hfetch ⊢
      obtain ⟨records, hrec⟩ := hfetch _ (List.mem_cons_self _ _)
      obtain ⟨ihr, ihs⟩ := hrest (allRecords ++ records)
        (fun p hp => hfetch p (List.mem_cons_of_mem _ hp))
      rw [hnext] at ihr ihs
      simp only at hrec
      simp only [chunkLoop, hi, if_true, ha, Bool.false_eq_true, if_false, hend, hrec]
      refine ⟨?_, ?_⟩
      · rw [ihr]
        simp only [gather, hrec, List.append_assoc]
      · simp only [ihs, List.map_cons]

/-- On a range of at most 106872 days the strides the loop walks are the strides
of the specification, so the live ones are those of them that do not start
after the clock reading. -/
theorem liveStrides_eq (now : Int → Int) (timeStart : Int) (days : Nat)
    (hfit : days ≤ 106872) :
    liveStrides now timeStart (timeStart + days) =
      (strides timeStart days).filter (fun p => !after p.1 (now (p.1 - timeStart))) := by
  unfold liveStrides strides
  rw [totalDays_of_days]
  have hcount : ((min (days : Int) 106751 + 365) / 366).toNat = (days + 365) / 366 := by
    rcases le_total (days : Int) 106751 with h | h
    · rw [min_eq_left h]; omega
    · rw [min_eq_right h]; omega
  rw [hcount]

/-- C6, as the specification words it, fails: a range of 30 days that starts
after the clock reading is fetched in one call. -/
theorem short_future_range_is_fetched :
    after 20800 (clock2026 0) = true ∧ (20830 : Int) - 20800 ≤ 366 ∧
    fetched (processStationData fetchNothing clock2026 goodDisk dayText "C0A520"
      20800 20830).steps = [(20800, 20830)] := by
  decide

/-- C6, amended: on a range of more than 366 days, no call of `getStationData`
is made for a stride that starts after the clock reading taken in its
iteration.  Such a stride contributes no record and raises no error: when the
fetches of the other strides succeed, the run makes exactly their calls, in
order, and hands `writeCSV` exactly their records, whatever a fetch of a skipped
stride would have returned; when every stride starts after the clock reading,
nothing is fetched and `writeCSV` gets no record.  A range of at most 366 days
is fetched in one call for the whole range whatever the clock reads. -/
theorem future_strides_are_skipped (fetch : String → Int → Int → Except FetchErr (List Record))
    (now : Int → Int) (disk : Disk) (fmtDay : Int → String) (stationID : String)
    (timeStart timeEnd : Int) :
    (366 < timeEnd - timeStart →
      (∀ s e, (s, e) ∈ fetched (processStationData fetch now disk fmtDay stationID
          timeStart timeEnd).steps → after s (now (s - timeStart)) = false) ∧
      ((∀ p ∈ liveStrides now timeStart timeEnd,
          ∃ records, fetch stationID p.1 p.2 = Except.ok records) →
        (processStationData fetch now disk fmtDay stationID timeStart timeEnd).steps =
          (liveStrides now timeStart timeEnd).map (fun p => Step.fetch stationID p.1 p.2) ++
            [Step.write
              (stationID ++ "_" ++ fmtDay timeStart ++ "_" ++ fmtDay timeEnd ++ ".csv")
              (writeCSV disk (gather fetch stationID (liveStrides now timeStart timeEnd)))] ∧
        (processStationData fetch now disk fmtDay stationID timeStart timeEnd).err =
          (writeCSV disk (gather fetch stationID
            (liveStrides now timeStart timeEnd))).err.map RunErr.save) ∧
      ((∀ i, 0 ≤ i → after (timeStart + i) (now i) = true) →
        (processStationData fetch now disk fmtDay stationID timeStart timeEnd).steps =
          [Step.write (stationID ++ "_" ++ fmtDay timeStart ++ "_" ++ fmtDay timeEnd ++ ".csv")
            (writeCSV disk [])] ∧
        (processStationData fetch now disk fmtDay stationID timeStart timeEnd).err =
          (writeCSV disk []).err.map RunErr.save)) ∧
    (timeEnd - timeStart ≤ 366 →
      fetched (processStationData fetch now disk fmtDay stationID timeStart timeEnd).steps =
        [(timeStart, timeEnd)]) := by
  constructor
  · intro hlong
    have hwin : withinWindow (sub timeEnd timeStart) = false := by
      cases hw : withinWindow (sub timeEnd timeStart) with
      | false => rfl
      | true => have := (window_iff timeStart timeEnd).1 hw; omega
    refine ⟨?_, ?_, ?_⟩
    · intro s e hmem
      simp only [processStationData, hwin, Bool.false_eq_true, if_false] at hmem
      have hloop := chunkLoop_not_future fetch now stationID timeStart timeEnd
        (totalDaysOf (sub timeEnd timeStart)) (totalDaysOf (sub timeEnd timeStart)).toNat 0 [] s e
      cases hres : (chunkLoop fetch now stationID timeStart timeEnd
          (totalDaysOf (sub timeEnd timeStart))
          (totalDaysOf (sub timeEnd timeStart)).toNat 0 []).result with
      | error err =>
        rw [hres] at hmem
        exact hloop hmem
      | ok allRecords =>
        rw [hres] at hmem
        simp only [save] at hmem
        apply hloop
        cases hw : (writeCSV disk allRecords).err <;>
          (rw [hw] at hmem; simp only [fetched_append_write] at hmem; exact hmem)
    · intro hfetch
      have hdays : timeEnd = timeStart + ((timeEnd - timeStart).toNat : Int) := by omega
      have htotal : totalDaysOf (sub timeEnd timeStart) =
          min (((timeEnd - timeStart).toNat : Nat) : Int) 106751 := by
        have h := totalDays_of_days timeStart (timeEnd - timeStart).toNat
        rw [← hdays] at h
        exact h
      have hT : 366 < totalDaysOf (sub timeEnd timeStart) := by
        rw [htotal, lt_min_iff]
        constructor <;> omega
      unfold liveStrides at hfetch ⊢
      have hloop := chunkLoop_live fetch now stationID timeStart timeEnd
        (totalDaysOf (sub timeEnd timeStart))
        ((totalDaysOf (sub timeEnd timeStart) + 365) / 366).toNat 0
        (totalDaysOf (sub timeEnd timeStart)).toNat [] (by omega) (by push_cast; omega)
        (fun _ => by push_cast; omega) hfetch
      simp only [Nat.cast_zero, mul_zero, List.nil_append] at hloop
      obtain ⟨hres, hsteps⟩ := hloop
      simp only [processStationData, hwin, Bool.false_eq_true, if_false, hres, hsteps, save]
      cases (writeCSV disk (gather fetch stationID
        ((stridesFrom timeStart timeEnd 0
          ((totalDaysOf (sub timeEnd timeStart) + 365) / 366).toNat).filter
          (fun p => !after p.1 (now (p.1 - timeStart)))))).err <;> exact ⟨rfl, rfl⟩
    · intro hfuture
      simp only [processStationData, hwin, Bool.false_eq_true, if_false,
        chunkLoop_all_future fetch now stationID timeStart timeEnd _ hfuture _ 0 []
          (le_refl 0), save, List.nil_append]
      cases (writeCSV disk []).err <;> exact ⟨rfl, rfl⟩
  · intro hshort
    have hwin := (window_iff timeStart timeEnd).2 hshort
    simp only [processStationData, hwin, if_true]
    cases fetch stationID timeStart timeEnd with
    | error err => rfl
    | ok records =>
      simp only [save]
      cases (writeCSV disk records).err <;> rfl

/-- A range of 1000 days from day 20361 with the clock at day 20761: the first
two strides are fetched and their two records written, the third, which starts
at day 21093 and whose fetch would fail, is skipped without an error.  A range
of 30 days that starts at day 20800, after the clock reading, is fetched in
one call. -/
theorem future_strides_are_skipped_witness :
    (366 : Int) < 21361 - 20361 ∧
    liveStrides clock2026 20361 21361 = [(20361, 20727), (20727, 21093)] ∧
    after 21093 (clock2026 732) = true ∧
    fetchPast "C0A520" 21093 21361 = Except.error FetchErr.json ∧
    (processStationData fetchPast clock2026 goodDisk dayText "C0A520" 20361 21361).steps =
      (liveStrides clock2026 20361 21361).map (fun p => Step.fetch "C0A520" p.1 p.2) ++
        [Step.write ("C0A520" ++ "_" ++ dayText 20361 ++ "_" ++ dayText 21361 ++ ".csv")
          (writeCSV goodDisk (gather fetchPast "C0A520" (liveStrides clock2026 20361 21361)))] ∧
    (processStationData fetchPast clock2026 goodDisk dayText "C0A520" 20361 21361).err = none ∧
    writtenFile (processStationData fetchPast clock2026 goodDisk dayText "C0A520"
        20361 21361).steps =
      some [ csvColumns, recordRow (Record.empty.set "WindSpeed" "a"),
        recordRow (Record.empty.set "WindSpeed" "b") ] ∧
    (20830 : Int) - 20800 ≤ 366 ∧ after 20800 (clock2026 0) = true ∧
    fetched (processStationData fetchPast clock2026 goodDisk dayText "C0A520"
      20800 20830).steps = [(20800, 20830)] :=
  have hlive : liveStrides clock2026 20361 21361 = [(20361, 20727), (20727, 21093)] := by
    decide
  have hfetch : ∀ p ∈ liveStrides clock2026 20361 21361,
      ∃ records, fetchPast "C0A520" p.1 p.2 = Except.ok records := by
    intro p hp
    rw [hlive] at hp
    simp only [List.mem_cons, List.mem_singleton, List.not_mem_nil, or_false] at hp
    rcases hp with rfl | rfl <;> exact ⟨_, rfl⟩
  have h := ((future_strides_are_skipped fetchPast clock2026 goodDisk dayText "C0A520"
    20361 21361).1 (by decide)).2.1 hfetch
  ⟨by decide, hlive, by decide, rfl, h.1, by decide, by decide, by decide, by decide,
    (future_strides_are_skipped fetchPast clock2026 goodDisk dayText "C0A520"
      20800 20830).2 (by decide)⟩

/-- C7: when a call of `getStationData` made by a run fails, the run returns
that failure wrapped, the failed call is the last effect of the run (no later
stride is fetched), and `writeCSV` is not called. -/
theorem fetch_failure_aborts_without_writing
    (fetch : String → Int → Int → Except FetchErr (List Record))
    (now : Int → Int) (disk : Disk) (fmtDay : Int → String) (stationID : String)
    (timeStart timeEnd s e : Int) (cause : FetchErr)
    (hcall : (s, e) ∈ fetched (processStationData fetch now disk fmtDay stationID
      timeStart timeEnd).steps)
    (hfail : fetch stationID s e = Except.error cause) :
    (processStationData fetch now disk fmtDay stationID timeStart timeEnd).err =
      some (RunErr.fetch cause) ∧
    (processStationData fetch now disk fmtDay stationID timeStart timeEnd).steps.getLast? =
      some (Step.fetch stationID s e) ∧
    wrote (processStationData fetch now disk fmtDay stationID timeStart timeEnd).steps =
      false := by
  unfold processStationData at hcall ⊢
  by_cases hwin : withinWindow (sub timeEnd timeStart) = true
  · simp only [hwin, if_true] at hcall ⊢
    cases hf : fetch stationID timeStart timeEnd with
    | error err =>
      rw [hf] at hcall
      simp only [fetched, List.mem_singleton, Prod.mk.injEq] at hcall
      obtain ⟨rfl, rfl⟩ := hcall
      rw [hf] at hfail
      cases hfail
      exact ⟨rfl, rfl, rfl⟩
    | ok records =>
      rw [hf] at hcall
      simp only [save] at hcall
      have hmem : (s, e) ∈ fetched [Step.fetch stationID timeStart timeEnd] := by
        cases hw : (writeCSV disk records).err <;>
          (rw [hw] at hcall; simp only [fetched_append_write] at hcall; exact hcall)
      simp only [fetched, List.mem_singleton, Prod.mk.injEq] at hmem
      obtain ⟨rfl, rfl⟩ := hmem
      rw [hf] at hfail
      cases hfail
  · simp only [hwin, Bool.false_eq_true, if_false] at hcall ⊢
    obtain ⟨hw, hsound⟩ := chunkLoop_sound fetch now stationID timeStart timeEnd
      (totalDaysOf (sub timeEnd timeStart)) (totalDaysOf (sub timeEnd timeStart)).toNat 0 []
    cases hres : (chunkLoop fetch now stationID timeStart timeEnd
        (totalDaysOf (sub timeEnd timeStart))
        (totalDaysOf (sub timeEnd timeStart)).toNat 0 []).result with
    | error err =>
      rw [hres] at hcall
      obtain ⟨hr, hlast⟩ := hsound s e cause hcall hfail
      rw [hres] at hr
      cases hr
      exact ⟨rfl, hlast, hw⟩
    | ok allRecords =>
      rw [hres] at hcall
      simp only [save] at hcall
      have hmem : (s, e) ∈ fetched (chunkLoop fetch now stationID timeStart timeEnd
          (totalDaysOf (sub timeEnd timeStart))
          (totalDaysOf (sub timeEnd timeStart)).toNat 0 []).steps := by
        cases hwr : (writeCSV disk allRecords).err <;>
          (rw [hwr] at hcall; simp only [fetched_append_write] at hcall; exact hcall)
      obtain ⟨hr, _⟩ := hsound s e cause hmem hfail
      rw [hres] at hr
      cases hr

/-- A range of 1000 days whose first fetch fails: the run returns the wrapped
failure after one fetch and writes nothing. -/
theorem fetch_failure_aborts_without_writing_witness :
    (0, 366) ∈ fetched (processStationData fetchFails clock2026 goodDisk dayText "C0A520"
      0 1000).steps ∧
    (processStationData fetchFails clock2026 goodDisk dayText "C0A520" 0 1000).err =
      some (RunErr.fetch FetchErr.json) ∧
    (processStationData fetchFails clock2026 goodDisk dayText "C0A520" 0 1000).steps.getLast? =
      some (Step.fetch "C0A520" 0 366) ∧
    wrote (processStationData fetchFails clock2026 goodDisk dayText "C0A520" 0 1000).steps =
      false :=
  ⟨by decide,
    fetch_failure_aborts_without_writing fetchFails clock2026 goodDisk dayText "C0A520"
      0 1000 0 366 FetchErr.json (by decide) rfl⟩

/-! ## The date reader -/

theorem isDigitChar_digitChar (n : Nat) (h : n < 10) : isDigitChar (digitChar n) = true := by
  interval_cases n <;> rfl

theorem digitVal_digitChar (n : Nat) (h : n < 10) : digitVal (digitChar n) = n := by
  interval_cases n <;> rfl

theorem getYear_pad4 (year : Nat) (h : year ≤ 9999) (rest : List Char) :
    getYear (pad4 year ++ rest) = some (year, rest) := by
  have h3 : year / 1000 < 10 := by omega
  have h2 : year / 100 % 10 < 10 := by omega
  have h1 : year / 10 % 10 < 10 := by omega
  have h0 : year % 10 < 10 := by omega
  simp only [pad4, List.cons_append, List.nil_append, getYear, isDigitChar_digitChar _ h3,
    isDigitChar_digitChar _ h2, isDigitChar_digitChar _ h1, isDigitChar_digitChar _ h0,
    digitVal_digitChar _ h3, digitVal_digitChar _ h2, digitVal_digitChar _ h1,
    digitVal_digitChar _ h0, Bool.and_self, if_true, Option.some.injEq, Prod.mk.injEq, and_true]
  omega

theorem getnum_pad2 (n : Nat) (h : n < 100) (isFixed : Bool) (rest : List Char) :
    getnum (pad2 n ++ rest) isFixed = some (n, rest) := by
  have h1 : n / 10 < 10 := by omega
  have h0 : n % 10 < 10 := by omega
  simp only [pad2, List.cons_append, List.nil_append, getnum, isDigitChar_digitChar _ h1,
    isDigitChar_digitChar _ h0, digitVal_digitChar _ h1, digitVal_digitChar _ h0, if_true,
    Option.some.injEq, Prod.mk.injEq, and_true]
  omega

theorem getnum_one (n : Nat) (h : n < 10) (c : Char) (hc : isDigitChar c = false)
    (isFixed : Bool) (rest : List Char) :
    getnum (digitChar n :: c :: rest) isFixed =
      if isFixed then none else some (n, c :: rest) := by
  simp [getnum, isDigitChar_digitChar _ h, digitVal_digitChar _ h, hc]

theorem getnum_last (n : Nat) (h : n < 10) (isFixed : Bool) :
    getnum [digitChar n] isFixed = if isFixed then none else some (n, []) := by
  simp [getnum, isDigitChar_digitChar _ h, digitVal_digitChar _ h]

theorem daysIn_le (month year : Nat) : daysIn month year ≤ 31 := by
  unfold daysIn
  split_ifs <;> omega

theorem layouts_eq :
    layouts = [layoutOf '-' true, layoutOf '/' true, layoutOf '-' false, layoutOf '/' false] :=
  rfl

/-- A layout reads a value whose month and day fields its `getnum` calls
accept, and returns the date at 00:00:00 UTC. -/
theorem timeParse_ok (c : Char) (isFixed : Bool) (ms ds : List Char) (year month day : Nat)
    (hy : year ≤ 9999) (hm : getnum (ms ++ c :: ds) isFixed = some (month, c :: ds))
    (hd : getnum ds isFixed = some (day, []))
    (hvalid : validDate year month day) :
    timeParse (layoutOf c isFixed) (String.mk (pad4 year ++ c :: (ms ++ c :: ds))) =
      some ⟨year, month, day, 0, 0, 0, 0⟩ := by
  obtain ⟨_, hm1, hm12, hd1, hdm⟩ := hvalid
  have hm0 : ¬ (month = 0 ∨ 12 < month) := by omega
  have hd0 : ¬ (day = 0 ∨ daysIn month year < day) := by omega
  cases isFixed <;>
    simp [timeParse, layoutOf, parseChunks, getYear_pad4 _ hy, hm, hd, hm0, hd0]

/-- A layout rejects a value whose first separator is not its own. -/
theorem timeParse_other_sep (c sep : Char) (hne : sep ≠ c) (isFixed : Bool) (rest : List Char)
    (year : Nat) (hy : year ≤ 9999) :
    timeParse (layoutOf c isFixed) (String.mk (pad4 year ++ sep :: rest)) = none := by
  simp [timeParse, layoutOf, parseChunks, getYear_pad4 _ hy, hne]

/-- A layout rejects a value whose month field its `getnum` call rejects. -/
theorem timeParse_bad_month (c : Char) (isFixed : Bool) (rest : List Char) (year : Nat)
    (hy : year ≤ 9999) (hm : getnum rest isFixed = none) :
    timeParse (layoutOf c isFixed) (String.mk (pad4 year ++ c :: rest)) = none := by
  cases isFixed <;> simp [timeParse, layoutOf, parseChunks, getYear_pad4 _ hy, hm]

/-- A layout rejects a value whose day field its `getnum` call rejects. -/
theorem timeParse_bad_day (c : Char) (isFixed : Bool) (ms ds : List Char) (year month : Nat)
    (hy : year ≤ 9999) (hm : getnum (ms ++ c :: ds) isFixed = some (month, c :: ds))
    (hd : getnum ds isFixed = none) :
    timeParse (layoutOf c isFixed) (String.mk (pad4 year ++ c :: (ms ++ c :: ds))) = none := by
  cases isFixed <;> simp [timeParse, layoutOf, parseChunks, getYear_pad4 _ hy, hm, hd]

theorem getnum_bare (n : Nat) (h : n < 100) (c : Char) (hc : isDigitChar c = false)
    (rest : List Char) :
    getnum (bare n ++ c :: rest) false = some (n, c :: rest) := by
  unfold bare
  split_ifs with h10
  · simp [getnum_one n h10 c hc]
  · exact getnum_pad2 n h false _

theorem getnum_bare_end (n : Nat) (h : n < 100) : getnum (bare n) false = some (n, []) := by
  unfold bare
  split_ifs with h10
  · simp [getnum_last n h10]
  · simpa using getnum_pad2 n h false []

/-- A zero-padded layout either rejects the unpadded rendering or reads the
same date from it. -/
theorem timeParse_fixed_on_bare (sep : Char) (hsep : isDigitChar sep = false)
    (year month day : Nat) (hvalid : validDate year month day) :
    timeParse (layoutOf sep true) (render sep false year month day) = none ∨
    timeParse (layoutOf sep true) (render sep false year month day) =
      some ⟨year, month, day, 0, 0, 0, 0⟩ := by
  have hy := hvalid.1
  have hd31 := daysIn_le month year
  have hm100 : month < 100 := by have := hvalid.2.2.1; omega
  have hd100 : day < 100 := by have := hvalid.2.2.2.2; omega
  simp only [render, Bool.false_eq_true, if_false]
  by_cases hm10 : month < 10
  · left
    apply timeParse_bad_month sep true _ year hy
    simp [bare, hm10, getnum_one month hm10 sep hsep]
  · have hbm : bare month = pad2 month := by simp [bare, hm10]
    by_cases hd10 : day < 10
    · left
      apply timeParse_bad_day sep true (bare month) (bare day) year month hy
      · rw [hbm]; exact getnum_pad2 month hm100 true _
      · simp [bare, hd10, getnum_last day hd10]
    · right
      have hbd : bare day = pad2 day := by simp [bare, hd10]
      apply timeParse_ok sep true (bare month) (bare day) year month day hy _ _ hvalid
      · rw [hbm]; exact getnum_pad2 month hm100 true _
      · rw [hbd]; simpa using getnum_pad2 day hd100 true []

/-- C10: for every valid calendar date with a year of four digits, its
renderings `YYYY-MM-DD`, `YYYY/MM/DD`, `YYYY-M-D` and `YYYY/M/D` are all
accepted by `parseFlexibleDate`, and each yields that date at 00:00:00. -/
theorem parseFlexibleDate_format_independent (year month day : Nat) (sep : Char)
    (padded : Bool) (hvalid : validDate year month day) (hsep : sep = '-' ∨ sep = '/') :
    parseFlexibleDate (render sep padded year month day) =
      some ⟨year, month, day, 0, 0, 0, 0⟩ := by
  have hy := hvalid.1
  have hd31 := daysIn_le month year
  have hm100 : month < 100 := by have := hvalid.2.2.1; omega
  have hd100 : day < 100 := by have := hvalid.2.2.2.2; omega
  have hdigit : isDigitChar sep = false := by rcases hsep with rfl | rfl <;> decide
  have hok : ∀ isFixed : Bool, isFixed = padded →
      timeParse (layoutOf sep isFixed) (render sep padded year month day) =
        some ⟨year, month, day, 0, 0, 0, 0⟩ := by
    intro isFixed hfix
    subst hfix
    cases isFixed with
    | true =>
      simp only [render, if_true]
      exact timeParse_ok sep true (pad2 month) (pad2 day) year month day hy
        (getnum_pad2 month hm100 true _) (by simpa using getnum_pad2 day hd100 true []) hvalid
    | false =>
      simp only [render, Bool.false_eq_true, if_false]
      exact timeParse_ok sep false (bare month) (bare day) year month day hy
        (getnum_bare month hm100 sep hdigit _) (getnum_bare_end day hd100) hvalid
  have hother : ∀ (c : Char) (isFixed : Bool), sep ≠ c →
      timeParse (layoutOf c isFixed) (render sep padded year month day) = none := by
    intro c isFixed hne
    cases padded <;>
      simp only [render, Bool.false_eq_true, if_false, if_true] <;>
      exact timeParse_other_sep c sep hne isFixed _ year hy
  unfold parseFlexibleDate
  rw [layouts_eq]
  simp only [firstParse]
  rcases hsep with rfl | rfl
  · cases padded with
    | true => rw [hok true rfl]
    | false =>
      rcases timeParse_fixed_on_bare '-' hdigit year month day hvalid with h1 | h1
      · rw [h1, hother '/' true (by decide), hok false rfl]
      · rw [h1]
  · rw [hother '-' true (by decide)]
    cases padded with
    | true => rw [hok true rfl]
    | false =>
      simp only
      rcases timeParse_fixed_on_bare '/' hdigit year month day hvalid with h2 | h2
      · rw [h2, hother '-' false (by decide), hok false rfl]
      · rw [h2]

/-- The renderings `2023-1-5` and `2023/01/05` of 5 January 2023 (and the other
two) are read as that date. -/
theorem parseFlexibleDate_format_independent_witness :
    validDate 2023 1 5 ∧
    render '-' false 2023 1 5 = "2023-1-5" ∧ render '/' true 2023 1 5 = "2023/01/05" ∧
    render '-' true 2023 1 5 = "2023-01-05" ∧ render '/' false 2023 1 5 = "2023/1/5" ∧
    parseFlexibleDate "2023-1-5" = some ⟨2023, 1, 5, 0, 0, 0, 0⟩ ∧
    parseFlexibleDate "2023/01/05" = some ⟨2023, 1, 5, 0, 0, 0, 0⟩ :=
  have hvalid : validDate 2023 1 5 := by decide
  ⟨hvalid, by decide, by decide, by decide, by decide,
    parseFlexibleDate_format_independent 2023 1 5 '-' false hvalid (Or.inl rfl),
    parseFlexibleDate_format_independent 2023 1 5 '/' true hvalid (Or.inr rfl)⟩

/-! ## The interactive shell -/

theorem findStation_some (items : List StationItem) (stationID : String) (found : StationItem)
    (h : findStation items stationID = some found) :
    found ∈ items ∧ found.StationID = stationID := by
  unfold findStation at h
  exact ⟨List.mem_of_find?_eq_some h, by simpa using List.find?_some h⟩

/-- Every step of `main` keeps what holds of the variables of a stage. -/
theorem step_reached (atoi : String → Option Int) (stationInfo : List StationItem)
    (stage : Stage) (input : Input) (h : stage.reached stationInfo) :
    (step atoi stationInfo stage input).1.reached stationInfo := by
  cases stage <;> cases input <;> simp only [step, Stage.reached] at h ⊢
  case menu.some choice => split_ifs <;> trivial
  case stationInput.some stationID =>
    cases hf : findStation stationInfo stationID with
    | none => trivial
    | some found => exact findStation_some _ _ _ hf
  case startDateInput.some stationID found timeStartStr =>
    cases parseFlexibleDate timeStartStr with
    | none => exact h
    | some t => simp only []; split_ifs <;> exact h
  case endDateInput.none => exact h
  case endDateInput.some stationID found timeStart timeEndStr =>
    cases parseFlexibleDate timeEndStr with
    | none => exact h
    | some t => simp only []; split_ifs <;> first | exact h | trivial
  case areaSelect.some areaIndexStr =>
    cases choose atoi (uniqueAreas stationInfo) areaIndexStr with
    | none => trivial
    | some area => simp only []; split_ifs <;> trivial
  case countySelect.some area countryIndexStr =>
    cases choose atoi (uniqueCountries stationInfo area) countryIndexStr with
    | none => trivial
    | some countryName => simp only []; split_ifs <;> trivial
  case stationSelect.some area countryName stationID typed =>
    cases hf : findStation (filteredStations stationInfo area countryName) typed with
    | none => exact h
    | some selectedStation =>
      refine ⟨h, ?_⟩
      have hmem := (findStation_some _ _ _ hf).1
      unfold filteredStations at hmem
      exact (List.mem_filter.1 hmem).1
  case startDateSelect.some area countryName stationID selectedStation timeStartStr =>
    cases parseFlexibleDate timeStartStr with
    | none => exact h
    | some t => simp only []; split_ifs <;> exact h
  case endDateSelect.none => exact h
  case endDateSelect.some area countryName stationID selectedStation timeStart timeEndStr =>
    cases parseFlexibleDate timeEndStr with
    | none => exact h
    | some t => simp only []; split_ifs <;> first | exact h | trivial

/-- A call made in a step from a stage `main` reaches passes, in option 2, the
empty `stationID` of line 600, and in option 1 the station code typed. -/
theorem step_call (atoi : String → Option Int) (stationInfo : List StationItem)
    (stage : Stage) (input : Input) (call : Call) (h : stage.reached stationInfo)
    (hcall : (step atoi stationInfo stage input).2 = some call) :
    (call.site = Site.sequential → call.stationID = "") ∧
    (call.site = Site.manual → ∃ found ∈ stationInfo, found.StationID = call.stationID) := by
  cases stage <;> cases input <;> simp only [step, Stage.reached] at h hcall
  case menu.some choice => split_ifs at hcall
  case stationInput.some stationID =>
    cases hf : findStation stationInfo stationID <;> rw [hf] at hcall <;> cases hcall
  case startDateInput.some stationID found timeStartStr =>
    cases hp : parseFlexibleDate timeStartStr <;> rw [hp] at hcall
    · cases hcall
    · simp only [] at hcall; split_ifs at hcall
  case endDateInput.some stationID found timeStart timeEndStr =>
    cases hp : parseFlexibleDate timeEndStr <;> rw [hp] at hcall
    · cases hcall
    · simp only [] at hcall
      split_ifs at hcall
      cases hcall
      exact ⟨fun hs => Site.noConfusion hs, fun _ => ⟨found, h.1, h.2⟩⟩
  case areaSelect.some areaIndexStr =>
    cases hc : choose atoi (uniqueAreas stationInfo) areaIndexStr <;> rw [hc] at hcall
    · cases hcall
    · simp only [] at hcall; split_ifs at hcall
  case countySelect.some area countryIndexStr =>
    cases hc : choose atoi (uniqueCountries stationInfo area) countryIndexStr <;>
      rw [hc] at hcall
    · cases hcall
    · simp only [] at hcall; split_ifs at hcall
  case stationSelect.some area countryName stationID typed =>
    cases hf : findStation (filteredStations stationInfo area countryName) typed <;>
      rw [hf] at hcall <;> cases hcall
  case startDateSelect.some area countryName stationID selectedStation timeStartStr =>
    cases hp : parseFlexibleDate timeStartStr <;> rw [hp] at hcall
    · cases hcall
    · simp only [] at hcall; split_ifs at hcall
  case endDateSelect.some area countryName stationID selectedStation timeStart timeEndStr =>
    cases hp : parseFlexibleDate timeEndStr <;> rw [hp] at hcall
    · cases hcall
    · simp only [] at hcall
      split_ifs at hcall
      cases hcall
      exact ⟨fun _ => h.1, fun hs => Site.noConfusion hs⟩
  all_goals cases hcall

theorem calls_stationID (atoi : String → Option Int) (stationInfo : List StationItem)
    (inputs : List Input) :
    ∀ (stage : Stage) (call : Call), stage.reached stationInfo →
      call ∈ calls atoi stationInfo stage inputs →
      (call.site = Site.sequential → call.stationID = "") ∧
      (call.site = Site.manual → ∃ found ∈ stationInfo, found.StationID = call.stationID) := by
  induction inputs with
  | nil => intro stage call _ hmem; simp [calls] at hmem
  | cons input rest ih =>
    intro stage call h hmem
    have hnext := step_reached atoi stationInfo stage input h
    simp only [calls] at hmem
    cases hs : (step atoi stationInfo stage input).2 with
    | none =>
      rw [hs] at hmem
      exact ih _ call hnext hmem
    | some made =>
      rw [hs] at hmem
      simp only [List.mem_cons] at hmem
      rcases hmem with rfl | hmem
      · exact step_call atoi stationInfo stage input call h hs
      · exact ih _ call hnext hmem

/-- Whatever is typed, every call of `processStationData` that `main` makes from
option 2 (line 690) passes the empty string as `stationID`, and every call it
makes from option 1 (line 517) passes the code of a station of the list. -/
theorem main_stationID (atoi : String → Option Int) (stationInfo : List StationItem)
    (inputs : List Input) (call : Call) (hmem : call ∈ main atoi stationInfo inputs) :
    (call.site = Site.sequential → call.stationID = "") ∧
    (call.site = Site.manual → ∃ found ∈ stationInfo, found.StationID = call.stationID) :=
  calls_stationID atoi stationInfo inputs Stage.menu call trivial hmem

theorem chunkLoop_stationID (fetch : String → Int → Int → Except FetchErr (List Record))
    (now : Int → Int) (stationID : String) (timeStart timeEnd totalDays : Int) :
    ∀ (fuel : Nat) (i : Int) (allRecords : List Record),
      ∀ st ∈ (chunkLoop fetch now stationID timeStart timeEnd totalDays
        fuel i allRecords).steps, ∃ s e, st = Step.fetch stationID s e := by
  intro fuel
  induction fuel with
  | zero => intro i allRecords st h; simp [chunkLoop] at h
  | succ fuel ih =>
    intro i allRecords st h
    simp only [chunkLoop] at h
    by_cases hi : i < totalDays
    · simp only [hi, if_true] at h
      by_cases ha : after (timeStart + i) (now i) = true
      · simp only [ha, if_true] at h
        exact ih _ _ st h
      · simp only [ha, Bool.false_eq_true, if_false] at h
        cases hf : fetch stationID (timeStart + i)
            (if timeStart + (i + 366) > timeEnd then timeEnd else timeStart + (i + 366)) with
        | error err =>
          rw [hf] at h
          simp only [List.mem_singleton] at h
          exact ⟨_, _, h⟩
        | ok records =>
          rw [hf] at h
          simp only [List.mem_cons] at h
          rcases h with h | h
          · exact ⟨_, _, h⟩
          · exact ih _ _ st h
    · simp [hi] at h

/-- The `stationID` handed to `processStationData` is the one of every request
it makes and the head of the name of the file it writes. -/
theorem processStationData_stationID
    (fetch : String → Int → Int → Except FetchErr (List Record))
    (now : Int → Int) (disk : Disk) (fmtDay : Int → String) (stationID : String)
    (timeStart timeEnd : Int) :
    ∀ st ∈ (processStationData fetch now disk fmtDay stationID timeStart timeEnd).steps,
      (∃ s e, st = Step.fetch stationID s e) ∨
      (∃ w, st = Step.write
        (stationID ++ "_" ++ fmtDay timeStart ++ "_" ++ fmtDay timeEnd ++ ".csv") w) := by
  intro st hst
  have hsave : ∀ (before : List Step) (allRecords : List Record),
      (∀ b ∈ before, ∃ s e, b = Step.fetch stationID s e) →
      st ∈ (save disk fmtDay stationID timeStart timeEnd before allRecords).steps →
      (∃ s e, st = Step.fetch stationID s e) ∨
      (∃ w, st = Step.write
        (stationID ++ "_" ++ fmtDay timeStart ++ "_" ++ fmtDay timeEnd ++ ".csv") w) := by
    intro before allRecords hb hmem
    simp only [save] at hmem
    have hmem2 : st ∈ before ++ [Step.write
        (stationID ++ "_" ++ fmtDay timeStart ++ "_" ++ fmtDay timeEnd ++ ".csv")
        (writeCSV disk allRecords)] := by
      cases hw : (writeCSV disk allRecords).err <;> (rw [hw] at hmem; exact hmem)
    rcases List.mem_append.1 hmem2 with h | h
    · exact Or.inl (hb st h)
    · exact Or.inr ⟨_, List.mem_singleton.1 h⟩
  unfold processStationData at hst
  by_cases hwin : withinWindow (sub timeEnd timeStart) = true
  · simp only [hwin, if_true] at hst
    cases hf : fetch stationID timeStart timeEnd with
    | error err =>
      rw [hf] at hst
      exact Or.inl ⟨_, _, List.mem_singleton.1 hst⟩
    | ok records =>
      rw [hf] at hst
      exact hsave _ _ (fun b hb => ⟨_, _, List.mem_singleton.1 hb⟩) hst
  · simp only [hwin, Bool.false_eq_true, if_false] at hst
    have hloop := chunkLoop_stationID fetch now stationID timeStart timeEnd
      (totalDaysOf (sub timeEnd timeStart)) (totalDaysOf (sub timeEnd timeStart)).toNat 0 []
    cases hres : (chunkLoop fetch now stationID timeStart timeEnd
        (totalDaysOf (sub timeEnd timeStart))
        (totalDaysOf (sub timeEnd timeStart)).toNat 0 []).result with
    | error err =>
      rw [hres] at hst
      exact Or.inl (hloop st hst)
    | ok allRecords =>
      rw [hres] at hst
      exact hsave _ _ hloop hst

/-- C11, evaluated on a list with the one station `C0A520`: after option 2,
area 1, county 1, the station code `C0A520` and the dates 2023-01-01 and
2023-01-31, `main` calls `processStationData` with the empty string as
`stationID`, not with `C0A520`; the same station and dates typed in option 1
give the call with `C0A520`.  With the empty `stationID` the request is made for
station `""` and the file is named `_..._....csv`. -/
theorem sequential_flow_passes_empty_stationID :
    main atoiOne oneStation
        [some "2", some "1", some "1", some "C0A520", some "2023-01-01", some "2023-01-31"] =
      [⟨Site.sequential, "", ⟨2023, 1, 1, 0, 0, 0, 0⟩, ⟨2023, 1, 31, 0, 0, 0, 0⟩⟩] ∧
    main atoiOne oneStation
        [some "1", some "C0A520", some "2023-01-01", some "2023-01-31"] =
      [⟨Site.manual, "C0A520", ⟨2023, 1, 1, 0, 0, 0, 0⟩, ⟨2023, 1, 31, 0, 0, 0, 0⟩⟩] ∧
    findStation (filteredStations oneStation "North" "NewTaipei") "C0A520" =
      some ⟨"C0A520", "Shanjia", "NewTaipei", "North", "1987-07-01", ""⟩ ∧
    (processStationData fetchNothing clock2026 goodDisk dayText "" 19358 19388).steps =
      [ Step.fetch "" 19358 19388,
        Step.write ("" ++ "_" ++ dayText 19358 ++ "_" ++ dayText 19388 ++ ".csv")
          (writeCSV goodDisk []) ] := by
  refine ⟨by decide, by decide, by decide, rfl⟩

end Codis
